import Mathlib

/-!
Verification of the korman material/texture export pipeline
(`korman/exporter/material.py`) against its specification.

The Python module is shallowly embedded below.  Blender data (images,
textures, texture slots, materials) becomes plain Lean structures; the
engine-side flag words from the external PyHSPlasma library
(`hsGMatState` blend/misc/shade/clamp/Z bits) are embedded as structures
of booleans, one field per bit that the exporter can set, so that
`x |= kFlag` becomes setting a field and `x & kBlendMask` becomes the
disjunction of the mask's member bits.  Python floats produced by the
module (opacity division, frame-time division) are embedded as `ℚ`; the
concrete values the spec mentions (50 / 100) are exactly representable
in binary floating point, so `ℚ` is faithful at every point a claim
touches.  Fallible code (raised `ExportError`, `AttributeError` from
attribute access on `None`, `KeyError` from dict lookup) returns
`Except`; warnings are accumulated in the converter state, which every
stateful operation returns even on the error path (matching Python,
where the report outlives an exception).  Recursive/looping code uses
structural fuel so that every definition evaluates by `rfl`/`decide`;
the fuel bounds are chosen so exhaustion is unreachable (the stencil
recursion advances the slot index, the slot loop consumes ≥ 1 slot per
iteration).
-/

/-- Structural floor-log2 helper with explicit fuel (`Nat.log2` is
defined by well-founded recursion and does not reduce in the kernel). -/
def log2Aux : Nat → Nat → Nat
  | 0, _ => 0
  | f + 1, n => if n ≤ 1 then 0 else log2Aux f (n / 2) + 1

/-- `log2floor n` = ⌊log₂ n⌋ for `1 ≤ n` (0 at 0).  This embeds
`math.floor(math.log(x, 2))`, which is exact for the power-of-two
values it is applied to in `finalize`. -/
def log2floor (n : Nat) : Nat := log2Aux n n

/-- Modelled from the spec: `helpers.ensure_power_of_two` (the
`korman.helpers` module is not part of the provided sources).  The spec
states a non-power-of-two dimension is resized to the next power of two
(300 → 512, 200 → 256) and a power-of-two input is unchanged. -/
def ensure_power_of_two (n : Nat) : Nat :=
  if n ≤ 1 then n else 2 ^ (log2floor (n - 1) + 1)

/-- `pre` is a prefix of `s` (embeds `str.startswith`); written over
`List Char` so it evaluates in the kernel. -/
def strStartsWith (s pre : String) : Bool := pre.data.isPrefixOf s.data

/-- Helper for substring search over the character list. -/
def strContainsAux (pat : List Char) : List Char → Bool
  | [] => pat.isEmpty
  | c :: rest => pat.isPrefixOf (c :: rest) || strContainsAux pat rest

/-- `pat` occurs as a contiguous substring of `s` (embeds Python
`pat in s` / `str.find(pat) != -1`). -/
def strContainsB (s pat : String) : Bool := strContainsAux pat.data s.data

/-- A Blender image datablock: the fields of `bpy.types.Image` the
exporter reads.  `tag` stands for datablock identity: Blender image
equality (`self.image == other.image`) is identity of the datablock. -/
structure Image where
  name : String
  tag : Nat
  channels : Nat
  use_alpha : Bool
  width : Nat
  height : Nat
deriving DecidableEq

/-- The per-texture `plasma_layer` property group fields read by this
module.  `opacity` is the 0–100 integer slider. -/
structure PlasmaLayerProps where
  opacity : Nat := 100
  alpha_halo : Bool := false
  anim_auto_start : Bool := true
  anim_loop : Bool := false
deriving DecidableEq

/-- One animation F-curve (only its data path is inspected here). -/
structure FCurve where
  data_path : String
deriving DecidableEq

/-- A Blender action together with its frame range.  `bl_id.animation_data.action`
is flattened to an `Option BAction` on the owning datablock. -/
structure BAction where
  fcurves : List FCurve
  frame_start : ℚ := 0
  frame_end : ℚ := 0
deriving DecidableEq

/-- The fields of `texture.environment_map` read by the dispatcher
(`source` is "STATIC" / "ANIMATED" / "IMAGE", `mapping` "PLANE"/...). -/
structure EnvironmentMap where
  source : String
  mapping : String := "CUBE"
deriving DecidableEq

/-- A Blender texture datablock (`bpy.types.Texture`) as read here.
`type` is the Blender enum string ("IMAGE", "ENVIRONMENT_MAP", "NONE",
"BLEND", ...), `extension` the wrap mode ("CLIP", "REPEAT", ...). -/
structure BTexture where
  name : String
  type : String
  image : Option Image := none
  use_calculate_alpha : Bool := false
  use_mipmap : Bool := false
  use_alpha : Bool := false
  invert_alpha : Bool := false
  extension : String := "REPEAT"
  environment_map : Option EnvironmentMap := none
  plasma_layer : PlasmaLayerProps := {}
  action : Option BAction := none
deriving DecidableEq

/-- A material texture slot (`bpy.types.MaterialTextureSlot`). -/
structure TextureSlot where
  name : String
  use : Bool := true
  texture : Option BTexture := none
  use_stencil : Bool := false
  blend_type : String := "MIX"
  uv_layer : String := ""
  offset : ℚ × ℚ × ℚ := (0, 0, 0)
  scale : ℚ × ℚ × ℚ := (1, 1, 1)
deriving DecidableEq

/-- A Blender material, with `texture_slots` (entries may be `None`). -/
structure BMaterial where
  name : String
  use_mist : Bool := true
  diffuse_color : ℚ × ℚ × ℚ := (1, 1, 1)
  specular_color : ℚ × ℚ × ℚ := (1, 1, 1)
  texture_slots : List (Option TextureSlot) := []
  action : Option BAction := none
deriving DecidableEq

/-- A Blender object; `data_uv_layers` is the list of UV map names of
its mesh data, in order. -/
structure BObject where
  name : String
  data_uv_layers : List String := []
deriving DecidableEq

/-- The `hsGMatState` blend bits the exporter can set (external
PyHSPlasma enum, embedded as one boolean per bit).  The first eight
fields are exactly the members of `kBlendMask`
(`kBlendAlpha | kBlendMult | kBlendAdd | kBlendAddColorTimesAlpha |
kBlendMADD | kBlendDot3 | kBlendAddSigned | kBlendAddSigned2X`). -/
structure BlendFlags where
  blendAlpha : Bool := false
  blendMult : Bool := false
  blendAdd : Bool := false
  blendAddColorTimesAlpha : Bool := false
  blendMADD : Bool := false
  blendDot3 : Bool := false
  blendAddSigned : Bool := false
  blendAddSigned2X : Bool := false
  blendInvertAlpha : Bool := false
  blendAlphaMult : Bool := false
  blendAlphaAdd : Bool := false
  blendNoTexColor : Bool := false
  blendAlphaTestHigh : Bool := false
deriving DecidableEq

/-- `flags & hsGMatState.kBlendMask ≠ 0`: some mask-member bit is set. -/
def blendMaskNonempty (f : BlendFlags) : Bool :=
  f.blendAlpha || f.blendMult || f.blendAdd || f.blendAddColorTimesAlpha ||
  f.blendMADD || f.blendDot3 || f.blendAddSigned || f.blendAddSigned2X

/-- The `hsGMatState` misc bits the exporter can set. -/
structure MiscFlags where
  miscBindNext : Bool := false
  miscRestartPassHere : Bool := false
  miscCam2Screen : Bool := false
  miscPerspProjection : Bool := false
  miscUseRefractionXform : Bool := false
deriving DecidableEq

/-- The `hsGMatState` shade bits the exporter can set. -/
structure ShadeFlags where
  shadeNoFog : Bool := false
  shadeReallyNoFog : Bool := false
  shadeEnvironMap : Bool := false
deriving DecidableEq

/-- A layer's `hsGMatState`: blend flags plus the single clamp bit
(`kClampTexture`) and Z bit (`kZNoZWrite`) this module touches. -/
structure LayerState where
  blendFlags : BlendFlags := {}
  clampTexture : Bool := false
  ZNoZWrite : Bool := false
  miscFlags : MiscFlags := {}
  shadeFlags : ShadeFlags := {}
deriving DecidableEq

/-- An engine RGBA color. -/
structure Color where
  r : ℚ
  g : ℚ
  b : ℚ
  a : ℚ
deriving DecidableEq

/-- `hsColorRGBA(r, g, b, a)`. -/
def hsColorRGBA (r g b a : ℚ) : Color := ⟨r, g, b, a⟩

/-- `utils.color` (korman `exporter/utils.py`, not among the provided
sources): converts a Blender RGB color to an engine color; embedded as
the evident RGB → RGBA conversion with opaque alpha. -/
def utils_color (c : ℚ × ℚ × ℚ) : Color := ⟨c.1, c.2.1, c.2.2, 1⟩

/-- An engine `plLayer`.  `key` is the object-registry key (keys are
allocated from a counter, so they double as object identity);
`texture` holds the key of the attached bitmap / render target, if
any.  Field defaults are the `plLayer` construction defaults. -/
structure Layer where
  key : Nat
  name : String
  state : LayerState := {}
  opacity : ℚ := 1
  texture : Option Nat := none
  UVWSrc : Nat := 0
  transform_offset : ℚ × ℚ × ℚ := (0, 0, 0)
  transform_scale : ℚ × ℚ × ℚ := (1, 1, 1)
  ambient : Color := hsColorRGBA 0 0 0 1
  preshade : Color := hsColorRGBA 0 0 0 1
  runtime : Color := hsColorRGBA 0 0 0 1
  specular : Color := hsColorRGBA 0 0 0 1
deriving DecidableEq

/-- An engine `plLayerAnimation` wrapping a base layer (its own fresh
`hsGMatState`, the attached controllers, and the time-convert data). -/
structure LayerAnimation where
  key : Nat
  name : String
  state : LayerState := {}
  underLay : Nat
  opacityCtl : Option Unit := none
  transformCtl : Option Unit := none
  atcBegin : ℚ := 0
  atcEnd : ℚ := 0
  atcStopped : Bool := false
  atcLoop : Bool := false
  loopBegin : ℚ := 0
  loopEnd : ℚ := 0
deriving DecidableEq

/-- One entry of a material's layer sequence: either a plain `plLayer`
or a `plLayerAnimation` chained over its base layer. -/
inductive MatLayer where
  | plain (layer : Layer)
  | anim (animation : LayerAnimation) (base : Layer)
deriving DecidableEq

/-- The `hsGMatState` of the object that sits in the layer sequence
(the wrapper's own state for an animated layer). -/
def MatLayer.state : MatLayer → LayerState
  | .plain layer => layer.state
  | .anim animation _ => animation.state

/-- Replace the `hsGMatState` of the object in the layer sequence. -/
def MatLayer.withState : MatLayer → LayerState → MatLayer
  | .plain layer, s => .plain { layer with state := s }
  | .anim animation base, s => .anim { animation with state := s } base

/-- The underlying `plLayer` built for the texture slot. -/
def MatLayer.base : MatLayer → Layer
  | .plain layer => layer
  | .anim _ base => base

/-- An engine `hsGMaterial` under construction. -/
structure HSGMaterial where
  key : Nat
  name : String
  compNeedsBlendChannel : Bool := false
  layers : List MatLayer := []
deriving DecidableEq

/-- The `_Texture` identity value (spec: TextureIdentity). -/
structure _Texture where
  image : Image
  calc_alpha : Bool
  use_alpha : Bool
  mipmap : Bool
deriving DecidableEq

/-- `_Texture.__init__` with a texture argument.  `image` is the
resolved image (the caller guarantees `texture.image` exists on this
path), `use_alpha` the optional explicit override, `force_calc_alpha`
the stencil override. -/
def _Texture.fromTexture (texture : BTexture) (image : Image)
    (use_alpha : Option Bool) (force_calc_alpha : Bool) : _Texture :=
  if force_calc_alpha || texture.use_calculate_alpha then
    { image := image
      calc_alpha := true
      use_alpha := true
      mipmap := texture.use_mipmap }
  else
    { image := image
      calc_alpha := texture.use_calculate_alpha
      use_alpha := match use_alpha with
        | none => decide (image.channels = 4) && image.use_alpha
        | some b => b
      mipmap := texture.use_mipmap }

/-- `_Texture.__init__` with only an image (as used by
`export_prepared_layer`). -/
def _Texture.fromImage (image : Image) : _Texture :=
  { image := image
    calc_alpha := false
    use_alpha := decide (image.channels = 4) && image.use_alpha
    mipmap := false }

/-- The equality test performed by `_Texture.__eq__`: same image
datablock and same `calc_alpha` (`use_alpha` / `mipmap` are not part of
identity). -/
def sameIdent (a b : _Texture) : Bool :=
  a.image == b.image && a.calc_alpha == b.calc_alpha

/-- The identity component of a `_Texture` (what `__eq__` compares). -/
def identOf (t : _Texture) : Image × Bool := (t.image, t.calc_alpha)

/-- `_Texture._update`: merge overridable flags from another equal-identity
reference (`use_alpha |= other.use_alpha`, `mipmap |= other.mipmap`). -/
def _Texture._update (self other : _Texture) : _Texture :=
  { self with
    use_alpha := self.use_alpha || other.use_alpha
    mipmap := self.mipmap || other.mipmap }

/-- One insertion into the pending-texture dict
(`self._pending[key].append(layer)` after an `in` probe, else
`self._pending[key] = [layer]`).  A CPython dict probe compares the
stored key with the probe key via `stored.__eq__(probe)`, whose side
effect `_update` merges the probe's `use_alpha`/`mipmap` into the
stored (first-inserted, retained) key; insertion order of distinct
identities is preserved. -/
def stash : List (_Texture × List Nat) → _Texture → Nat → List (_Texture × List Nat)
  | [], key, layerKey => [(key, [layerKey])]
  | (k, ls) :: rest, key, layerKey =>
    if sameIdent k key then (k._update key, ls ++ [layerKey]) :: rest
    else (k, ls) :: stash rest key layerKey

/-- The pending table produced by a sequence of stash operations
(references in first-seen order), starting from the empty session
table. -/
def stashAll (refs : List (_Texture × Nat)) : List (_Texture × List Nat) :=
  refs.foldl (fun t r => stash t r.1 r.2) []

/-- The references of a session that share one identity, in order. -/
def identGroup (refs : List (_Texture × Nat)) (q : _Texture) : List (_Texture × Nat) :=
  refs.filter (fun r => sameIdent r.1 q)

/-- The error outcomes of the embedded module: a raised
`explosions.ExportError`, a Python `AttributeError` (attribute access
on `None`), a `KeyError` (failed dict lookup), and an `outOfFuel`
artifact of the structural-fuel embedding of recursion (unreachable
with the fuel bounds used below). -/
inductive ExpErr where
  | exportError (msg : String)
  | attributeError
  | keyError
  | outOfFuel
deriving DecidableEq

/-- The session services the converter reaches through its back
reference and through `self._mgr` — external collaborators (scene
settings, the korlib pixel service, the animation-curve converter, the
page resolver), modelled as opaque functions. -/
structure Env where
  world_ambient_color : ℚ × ℚ × ℚ
  fps : ℚ
  gl_has_alpha : Image → Bool
  make_scalar_leaf_controller : FCurve → Option Unit
  make_matrix44_controller : List FCurve → List FCurve → (ℚ × ℚ × ℚ) → (ℚ × ℚ × ℚ) → Option Unit
  export_dynamic_env : BObject → BTexture → Except ExpErr Nat
  get_textures_page : Nat → Nat
  get_level_data : Image → Nat → Bool → Bool → Nat

/-- The mutable converter state threaded through material conversion:
the object-registry key counter (`self._mgr.add_object` allocation),
the pending-texture table `self._pending`, and the warnings emitted
through the report sink.  The `_alphatest` memo cache is omitted: it
only memoizes the pure pixel scan `gl_has_alpha`.  The `_obj2mat`
cache is kept separately (see `ObjMats`): the texture/layer pipeline
never touches it. -/
structure ConvState where
  nextKey : Nat := 0
  pending : List (_Texture × List Nat) := []
  warnings : List String := []
deriving DecidableEq

/-- Allocate the next object-registry key. -/
def allocKey (st : ConvState) : Nat × ConvState :=
  (st.nextKey, { st with nextKey := st.nextKey + 1 })

/-- `self._obj2mat`: renderable object → material keys, in export
order (a Python dict of lists). -/
def ObjMats := List (BObject × List Nat)

/-- The `_obj2mat` update in `export_material`: append when the object
already has an entry, else insert a fresh singleton list. -/
def obj2matAdd : List (BObject × List Nat) → BObject → Nat → List (BObject × List Nat)
  | [], bo, key => [(bo, [key])]
  | (b, keys) :: rest, bo, key =>
    if b == bo then (b, keys ++ [key]) :: rest
    else (b, keys) :: obj2matAdd rest bo key

/-- `MaterialConverter.get_materials`: a plain dict lookup, raising
`KeyError` when the object was never registered. -/
def get_materials (om : List (BObject × List Nat)) (bo : BObject) : Except ExpErr (List Nat) :=
  match om.lookup bo with
  | some keys => .ok keys
  | none => .error .keyError

/-- `MaterialConverter._propagate_material_settings`: shade flags from
`use_mist`, colors from the world ambient color and the material's
diffuse/specular colors. -/
def _propagate_material_settings (env : Env) (bm : BMaterial) (layer : Layer) : Layer :=
  let state := layer.state
  let state :=
    if !bm.use_mist then
      { state with shadeFlags := { state.shadeFlags with
          shadeNoFog := true
          shadeReallyNoFog := true } }
    else state
  { layer with
    state := state
    ambient := utils_color env.world_ambient_color
    preshade := utils_color bm.diffuse_color
    runtime := utils_color bm.diffuse_color
    specular := utils_color bm.specular_color }

/-- The UVW-channel resolution loop: index of the first UV map whose
name matches the slot's `uv_layer`, else the `plLayer` default 0 (with
a logged warning). -/
def resolveUVW (uv_layers : List String) (uv_name : String) : Nat :=
  (uv_layers.findIdx? (· == uv_name)).getD 0

/-- The custom layer-property application (`material.py` lines
198–204): every slot's layer — stencil or not — has its opacity set to
`plasma_layer.opacity / 100`, alpha blending forced iff the opacity
override is < 100, and the high alpha-test blend flag set iff
`alpha_halo` is on. -/
def applyLayerProps (layer_props : PlasmaLayerProps) (layer : Layer) : Layer :=
  let layer := { layer with opacity := (layer_props.opacity : ℚ) / 100 }
  let layer :=
    if layer_props.opacity < 100 then
      { layer with state := { layer.state with
          blendFlags := { layer.state.blendFlags with blendAlpha := true } } }
    else layer
  if layer_props.alpha_halo then
    { layer with state := { layer.state with
        blendFlags := { layer.state.blendFlags with blendAlphaTestHigh := true } } }
  else layer

/-- `MaterialConverter._test_image_alpha` without its (behaviourally
transparent) memo cache: 4-channel + use-alpha gate, then the korlib
pixel scan. -/
def _test_image_alpha (env : Env) (image : Image) : Bool :=
  if image.channels ≠ 4 then false
  else if !image.use_alpha then false
  else env.gl_has_alpha image

/-- `MaterialConverter._export_texture_type_image`: alpha detection
and warning, blend/clamp flags, then either a `plDynamicTextMap`
placeholder (no backing image) or a pending-table stash keyed by the
computed `_Texture` identity. -/
def _export_texture_type_image (env : Env) (st : ConvState) (layer : Layer)
    (slot : TextureSlot) (texture : BTexture) : ConvState × Layer :=
  let hasAlphaWarn : ConvState × Bool :=
    match texture.image with
    | some img =>
      let ha := texture.use_calculate_alpha || slot.use_stencil || _test_image_alpha env img
      if (img.use_alpha && texture.use_alpha) && !ha then
        ({ st with warnings := st.warnings ++
            ["\x27" ++ texture.name ++ "\x27 wants to use alpha, but \x27" ++
              img.name ++ "\x27 is opaque"] }, ha)
      else (st, ha)
    | none => (st, true)
  let st := hasAlphaWarn.1
  let has_alpha := hasAlphaWarn.2
  let state := layer.state
  let state :=
    if !slot.use_stencil then
      let state :=
        if texture.use_alpha && has_alpha then
          if slot.blend_type == "ADD" then
            { state with blendFlags := { state.blendFlags with blendAlphaAdd := true } }
          else if slot.blend_type == "MULTIPLY" then
            { state with blendFlags := { state.blendFlags with blendAlphaMult := true } }
          else
            { state with blendFlags := { state.blendFlags with blendAlpha := true } }
        else state
      if texture.invert_alpha && has_alpha then
        { state with blendFlags := { state.blendFlags with blendInvertAlpha := true } }
      else state
    else state
  let state := if texture.extension == "CLIP" then { state with clampTexture := true } else state
  let layer := { layer with state := state }
  match texture.image with
  | none =>
    let (dtmKey, st) := allocKey st
    (st, { layer with texture := some dtmKey })
  | some img =>
    let key := _Texture.fromTexture texture img (some has_alpha) slot.use_stencil
    ({ st with pending := stash st.pending key layer.key }, layer)

/-- `MaterialConverter._export_texture_type_environment_map`.  The
STATIC/ANIMATED path goes through `export_dynamic_env` (an allocation
/ deduplication routine whose internals no claim touches, abstracted
into the environment).  Any other source warns — and then the source
unconditionally executes `layer.texture = pl_env.key` with
`pl_env = None`, raising `AttributeError` (after the environment-map
shade flag was set on the doomed layer). -/
def _export_texture_type_environment_map (env : Env) (bo : BObject) (st : ConvState)
    (layer : Layer) (texture : BTexture) : ConvState × Except ExpErr Layer :=
  match texture.environment_map with
  | none => (st, .error .attributeError)
  | some bl_env =>
    if bl_env.source == "STATIC" || bl_env.source == "ANIMATED" then
      match env.export_dynamic_env bo texture with
      | .error e => (st, .error e)
      | .ok envKey =>
        let layer := { layer with state := { layer.state with
            shadeFlags := { layer.state.shadeFlags with shadeEnvironMap := true } } }
        (st, .ok { layer with texture := some envKey })
    else
      let st := { st with warnings := st.warnings ++
        ["IMAGE EnvironmentMaps are not supported. \x27" ++ layer.name ++
          "\x27 will not be exported!"] }
      let _layer := { layer with state := { layer.state with
          shadeFlags := { layer.state.shadeFlags with shadeEnvironMap := true } } }
      (st, .error .attributeError)

/-- The `self._tex_exporters` dispatch (`IMAGE`, `ENVIRONMENT_MAP`,
`NONE`); an unregistered type would be a `KeyError` (unreachable for
qualifying slots). -/
def exportTextureType (env : Env) (bo : BObject) (st : ConvState) (layer : Layer)
    (slot : TextureSlot) (texture : BTexture) : ConvState × Except ExpErr Layer :=
  if texture.type == "ENVIRONMENT_MAP" then
    _export_texture_type_environment_map env bo st layer texture
  else if texture.type == "IMAGE" then
    let r := _export_texture_type_image env st layer slot texture
    (r.1, .ok r.2)
  else if texture.type == "NONE" then
    (st, .ok layer)
  else
    (st, .error .keyError)

/-- The F-curve harvest from the material's action, filtered to paths
referencing this slot index (`harvest_fcurves(bm, fcurves,
"texture_slots[{idx}]")`). -/
def harvest_fcurves_material (bm : BMaterial) (idx : Nat) : List FCurve :=
  match bm.action with
  | none => []
  | some action =>
    action.fcurves.filter
      (fun f => strStartsWith f.data_path ("texture_slots[" ++ toString idx ++ "]"))

/-- `MaterialConverter._export_layer_opacity_animation`: on the first
curve whose path is `plasma_layer.opacity`, force alpha blending on
the base layer and ask the animation converter for a scalar leaf
controller (which may signal no applicable data); otherwise produce
nothing.  Note the flag mutation happens before, and regardless of,
the controller outcome. -/
def _export_layer_opacity_animation (env : Env) (base_layer : Layer)
    (fcurves : List FCurve) : Layer × Option Unit :=
  match fcurves.find? (fun f => f.data_path == "plasma_layer.opacity") with
  | some f =>
    let base_layer := { base_layer with state := { base_layer.state with
        blendFlags := { base_layer.state.blendFlags with blendAlpha := true } } }
    (base_layer, env.make_scalar_leaf_controller f)
  | none => (base_layer, none)

/-- `MaterialConverter._export_layer_transform_animation`: split the
curves on path substrings "offset" / "scale" and ask for a matrix44
controller. -/
def _export_layer_transform_animation (env : Env) (tex_slot : TextureSlot)
    (fcurves : List FCurve) : Option Unit :=
  let pos_fcurves := fcurves.filter (fun f => strContainsB f.data_path "offset")
  let scale_fcurves := fcurves.filter (fun f => strContainsB f.data_path "scale")
  env.make_matrix44_controller pos_fcurves scale_fcurves tex_slot.offset tex_slot.scale

/-- The curves gathered by `_export_layer_animations`: the material's
action filtered to this slot index, then the texture's own action
unfiltered. -/
def gatherLayerFCurves (bm : BMaterial) (texture : BTexture) (idx : Nat) : List FCurve :=
  harvest_fcurves_material bm idx ++
    (match texture.action with | some a => a.fcurves | none => [])

/-- `MaterialConverter._export_layer_animations`: harvest curves from
the material (filtered to this slot) and the texture (unfiltered); if
none, the base layer is returned unchanged.  Else run the registered
sub-exporters (opacity first, then transform — dict insertion order);
if neither produced a controller the (possibly flag-mutated) base
layer is returned; else allocate a `plLayerAnimation` wrapper, chain
it over the base layer and fill the time-convert data from whichever
action contributed (the texture's action preferred). -/
def _export_layer_animations (env : Env) (bm : BMaterial) (tex_slot : TextureSlot)
    (texture : BTexture) (idx : Nat) (st : ConvState) (base_layer : Layer) :
    ConvState × MatLayer :=
  let mat_action := bm.action
  let tex_action := texture.action
  let fcurves := gatherLayerFCurves bm texture idx
  if fcurves.isEmpty then (st, .plain base_layer)
  else
    let opacityRes := _export_layer_opacity_animation env base_layer fcurves
    let base_layer := opacityRes.1
    let opacityCtl := opacityRes.2
    let transformCtl := _export_layer_transform_animation env tex_slot fcurves
    if opacityCtl.isNone && transformCtl.isNone then
      (st, .plain base_layer)
    else
      let (animKey, st) := allocKey st
      let frange : ℚ × ℚ :=
        match tex_action with
        | some a => (a.frame_start, a.frame_end)
        | none =>
          match mat_action with
          | some a => (a.frame_start, a.frame_end)
          | none => (0, 0)    -- unreachable: nonempty fcurves came from some action
      let layer_props := texture.plasma_layer
      let b := frange.1 / env.fps
      let e := frange.2 / env.fps
      (st, .anim
        { key := animKey
          name := base_layer.name ++ "_LayerAnim"
          underLay := base_layer.key
          opacityCtl := opacityCtl
          transformCtl := transformCtl
          atcBegin := b
          atcEnd := e
          atcStopped := !layer_props.anim_auto_start
          atcLoop := layer_props.anim_loop
          loopBegin := if layer_props.anim_loop then b else 0
          loopEnd := if layer_props.anim_loop then e else 0 }
        base_layer)

/-- The retroactive stencil flagging (`material.py` lines 184–188)
applied to the most recently appended layer: set `kMiscBindNext` and
`kMiscRestartPassHere`, and force `kBlendAlpha` iff no `kBlendMask`
bit is set yet. -/
def flagStencilPrev (prev : MatLayer) : MatLayer :=
  let prev_state := prev.state
  let prev_state := { prev_state with miscFlags := { prev_state.miscFlags with
      miscBindNext := true
      miscRestartPassHere := true } }
  let prev_state :=
    if !blendMaskNonempty prev_state.blendFlags then
      { prev_state with blendFlags := { prev_state.blendFlags with blendAlpha := true } }
    else prev_state
  prev.withState prev_state

/-- Apply `f` to the last element of a list (`hsgmat.layers[-1]`). -/
def modifyLast (f : MatLayer → MatLayer) : List MatLayer → List MatLayer
  | [] => []
  | [x] => [f x]
  | x :: rest => x :: modifyLast f rest

/-- The tail shared by both branches of `_export_texture_slot` after
the stencil / blend-type split: apply the custom layer properties,
dispatch on the texture type, run the animation exporter, append the
resulting layer to the material and report the consumed-slot count. -/
def finishSlot (env : Env) (bo : BObject) (bm : BMaterial) (st : ConvState)
    (hsgmat : HSGMaterial) (slot : TextureSlot) (texture : BTexture) (layer : Layer)
    (idx num_exported : Nat) : ConvState × Except ExpErr (HSGMaterial × Nat) :=
  let layer := applyLayerProps texture.plasma_layer layer
  match exportTextureType env bo st layer slot texture with
  | (st, .error e) => (st, .error e)
  | (st, .ok layer) =>
    let anims := _export_layer_animations env bm slot texture idx st layer
    (anims.1, .ok ({ hsgmat with layers := hsgmat.layers ++ [anims.2] }, num_exported))

/-- `MaterialConverter._export_texture_slot`, with structural fuel for
the stencil recursion (each recursive call moves to the next slot
index, so `slots.length` fuel can never run out from index 0;
`.outOfFuel` is an unreachable artifact).  A stencil slot sets its
blend/clamp/Z/ambient state, requires a following slot (else the
stencil `ExportError`), recursively exports that slot first, then
retroactively flags the layer the recursion appended and reports two
slots consumed; a plain slot maps its Blender blend type and reports
one. -/
def _export_texture_slotF (env : Env) (bo : BObject) (bm : BMaterial) :
    Nat → ConvState → HSGMaterial → List TextureSlot → Nat →
    ConvState × Except ExpErr (HSGMaterial × Nat)
  | 0, st, _, _, _ => (st, .error .outOfFuel)
  | fuel + 1, st, hsgmat, slots, idx =>
    match slots[idx]? with
    | none => (st, .error .keyError)    -- unreachable: the loop guarantees idx < slots.length
    | some slot =>
      let name := bm.name ++ "_" ++ slot.name
      let (layerKey, st) := allocKey st
      let layer : Layer := { key := layerKey, name := name }
      let layer := _propagate_material_settings env bm layer
      let layer := { layer with
        UVWSrc := resolveUVW bo.data_uv_layers slot.uv_layer
        transform_offset := slot.offset
        transform_scale := slot.scale }
      match slot.texture with
      | none => (st, .error .attributeError)   -- source dereferences slot.texture
      | some texture =>
        if slot.use_stencil then
          let hsgmat := { hsgmat with compNeedsBlendChannel := true }
          let state := layer.state
          let state := { state with blendFlags := { state.blendFlags with
              blendAlpha := true
              blendAlphaMult := true
              blendNoTexColor := true } }
          let state := if texture.type == "BLEND" then { state with clampTexture := true } else state
          let state := { state with ZNoZWrite := true }
          let layer := { layer with state := state, ambient := hsColorRGBA 1 1 1 1 }
          if slots.length = idx + 1 then
            (st, .error (.exportError ("Texture Slot \x27" ++ slot.name ++
              "\x27 wants to be a stencil, but there are no more TextureSlots.")))
          else
            match _export_texture_slotF env bo bm fuel st hsgmat slots (idx + 1) with
            | (st, .error e) => (st, .error e)
            | (st, .ok (hsgmat, _)) =>
              let hsgmat := { hsgmat with layers := modifyLast flagStencilPrev hsgmat.layers }
              finishSlot env bo bm st hsgmat slot texture layer idx 2
        else
          let state := layer.state
          let state :=
            if slot.blend_type == "ADD" then
              { state with blendFlags := { state.blendFlags with blendAddColorTimesAlpha := true } }
            else if slot.blend_type == "MULTIPLY" then
              { state with blendFlags := { state.blendFlags with blendMult := true } }
            else state
          let layer := { layer with state := state }
          finishSlot env bo bm st hsgmat slot texture layer idx 1

/-- `_export_texture_slot` with its natural fuel. -/
def _export_texture_slot (env : Env) (bo : BObject) (bm : BMaterial) (st : ConvState)
    (hsgmat : HSGMaterial) (slots : List TextureSlot) (idx : Nat) :
    ConvState × Except ExpErr (HSGMaterial × Nat) :=
  _export_texture_slotF env bo bm slots.length st hsgmat slots idx

/-- The qualifying-slot list of `export_material`: non-`None`, enabled,
with a texture whose type has a registered exporter. -/
def qualifyingSlots (bm : BMaterial) : List TextureSlot :=
  (bm.texture_slots.filterMap id).filter
    (fun slot => slot.use &&
      (match slot.texture with
       | some t => t.type == "ENVIRONMENT_MAP" || t.type == "IMAGE" || t.type == "NONE"
       | none => false))

/-- The cursor loop of `export_material` (`while i < len(slots): i +=
self._export_texture_slot(...)`), with structural fuel; each iteration
consumes ≥ 1 slot (the per-slot exporter returns 1 or 2), so
`slots.length + 1` fuel can never run out. -/
def exportSlotsLoopF (env : Env) (bo : BObject) (bm : BMaterial) (slots : List TextureSlot) :
    Nat → ConvState → HSGMaterial → Nat → ConvState × Except ExpErr HSGMaterial
  | 0, st, hsgmat, i =>
    if i < slots.length then (st, .error .outOfFuel) else (st, .ok hsgmat)
  | fuel + 1, st, hsgmat, i =>
    if i < slots.length then
      match _export_texture_slot env bo bm st hsgmat slots i with
      | (st, .error e) => (st, .error e)
      | (st, .ok (hsgmat, n)) => exportSlotsLoopF env bo bm slots fuel st hsgmat (i + n)
    else (st, .ok hsgmat)

/-- `MaterialConverter.export_material`: allocate the `hsGMaterial`,
walk the qualifying slots, synthesize the default layer if no layer
was produced, and register the material key in `_obj2mat`. -/
def export_material (env : Env) (st : ConvState) (om : List (BObject × List Nat))
    (bo : BObject) (bm : BMaterial) :
    ConvState × List (BObject × List Nat) × Except ExpErr (Nat × HSGMaterial) :=
  let (matKey, st) := allocKey st
  let hsgmat : HSGMaterial := { key := matKey, name := bm.name }
  let slots := qualifyingSlots bm
  match exportSlotsLoopF env bo bm slots (slots.length + 1) st hsgmat 0 with
  | (st, .error e) => (st, om, .error e)
  | (st, .ok hsgmat) =>
    let withAuto : ConvState × HSGMaterial :=
      if hsgmat.layers.isEmpty then
        let (layerKey, st) := allocKey st
        let layer : Layer := { key := layerKey, name := bm.name ++ "_AutoLayer" }
        let layer := _propagate_material_settings env bm layer
        (st, { hsgmat with layers := hsgmat.layers ++ [.plain layer] })
      else (st, hsgmat)
    let st := withAuto.1
    let hsgmat := withAuto.2
    let om := obj2matAdd om bo matKey
    (st, om, .ok (matKey, hsgmat))

/-- `MaterialConverter.export_waveset_material`: a dedicated material
with exactly one layer and forced alpha blending.  Note: it does not
register anything in `_obj2mat`. -/
def export_waveset_material (env : Env) (st : ConvState) (_bo : BObject) (bm : BMaterial) :
    ConvState × (Nat × HSGMaterial) :=
  let unique_name := bm.name ++ "_WaveSet7"
  let (matKey, st) := allocKey st
  let (layerKey, st) := allocKey st
  let layer : Layer := { key := layerKey, name := unique_name }
  let layer := _propagate_material_settings env bm layer
  let layer := { layer with state := { layer.state with
      blendFlags := { layer.state.blendFlags with blendAlpha := true } } }
  (st, (matKey, { key := matKey, name := unique_name, layers := [.plain layer] }))

/-- `MaterialConverter.export_prepared_layer`: the externally invoked
pending-table stash for pre-baked images. -/
def export_prepared_layer (st : ConvState) (layerKey : Nat) (image : Image) : ConvState :=
  { st with pending := stash st.pending (_Texture.fromImage image) layerKey }

/-- One call of an export session: `export_material` or
`export_waveset_material` for some object/material pair. -/
inductive ConvCall where
  | material (bo : BObject) (bm : BMaterial)
  | waveset (bo : BObject) (bm : BMaterial)
deriving DecidableEq

/-- Run a session's sequence of export calls, collecting a ledger of
(was-export_material, object, returned material key) and stopping at
the first error. -/
def runExports (env : Env) : ConvState → List (BObject × List Nat) → List ConvCall →
    ConvState × List (BObject × List Nat) × Except ExpErr (List (Bool × BObject × Nat))
  | st, om, [] => (st, om, .ok [])
  | st, om, .material bo bm :: rest =>
    match export_material env st om bo bm with
    | (st, om, .error e) => (st, om, .error e)
    | (st, om, .ok (key, _)) =>
      match runExports env st om rest with
      | (st, om, .error e) => (st, om, .error e)
      | (st, om, .ok ledger) => (st, om, .ok ((true, bo, key) :: ledger))
  | st, om, .waveset bo bm :: rest =>
    let r := export_waveset_material env st bo bm
    match runExports env r.1 om rest with
    | (st, om, .error e) => (st, om, .error e)
    | (st, om, .ok ledger) => (st, om, .ok ((false, bo, r.2.1) :: ledger))

/-- The material keys a session ledger records for `bo` through
`export_material`, in call order. -/
def matKeysOf (ledger : List (Bool × BObject × Nat)) (bo : BObject) : List Nat :=
  (ledger.filter (fun e => e.1 && (e.2.1 == bo))).map (fun e => e.2.2)

/-- `plBitmap` compression type chosen by `finalize`. -/
inductive CompType where
  | directXCompression
  | uncompressed
deriving DecidableEq

/-- `plBitmap` DXT level chosen by `finalize`. -/
inductive DxtLevel where
  | dxt5
  | dxt1
deriving DecidableEq

/-- A `plMipmap` object allocated by `finalize`.  `id` is the
allocation identity (each `plMipmap(...)` construction is a fresh
object); `data` is the per-level pixel payload stuffed by
`helper.store_in_mipmap`, recorded as the opaque level-data values the
korlib extraction produced. -/
structure MipmapObj where
  id : Nat
  width : Nat
  height : Nat
  numLevels : Nat
  compType : CompType
  dxt : DxtLevel
  data : List Nat
deriving DecidableEq

/-- Everything of a `plMipmap` except its object identity: the
dimensions, level count, compression choice and stuffed level data. -/
def mipContent (m : MipmapObj) : Nat × Nat × Nat × CompType × DxtLevel × List Nat :=
  (m.width, m.height, m.numLevels, m.compType, m.dxt, m.data)

/-- The per-layer page bucketing loop at the end of `finalize` (lines
529–549): resolve each consuming layer's page; the first consumer of a
page allocates one fresh `plMipmap` (`mk nextId`) and stores the level
data, later consumers of the same page reuse that object.  Returns the
next fresh id, the page → mipmap dict, and the layer → mipmap
assignment in consumer order. -/
def finalizePagesLoop (env : Env) (mk : Nat → MipmapObj) :
    List Nat → Nat → List (Nat × MipmapObj) →
    Nat × List (Nat × MipmapObj) × List (Nat × MipmapObj)
  | [], nextId, pages => (nextId, pages, [])
  | layerKey :: rest, nextId, pages =>
    let page := env.get_textures_page layerKey
    match pages.lookup page with
    | some m =>
      let r := finalizePagesLoop env mk rest nextId pages
      (r.1, r.2.1, (layerKey, m) :: r.2.2)
    | none =>
      let m := mk nextId
      let r := finalizePagesLoop env mk rest (nextId + 1) (pages ++ [(page, m)])
      (r.1, r.2.1, (layerKey, m) :: r.2.2)

/-- The `finalize` mip-level count: the raw
`math.floor(math.log(max(eWidth, eHeight), 2)) + 1` on the
power-of-two-adjusted dimensions if mipmaps were requested (else one
level), followed by the documented known-bad-levels workaround
(`numLevels = max(numLevels - 2, 2)` when mipmapped: the last two
1×1/2×2 levels are lopped off to avoid the runtime's broken
block-compressed allocation). -/
def finalizeNumLevels (mipmap : Bool) (eWidth eHeight : Nat) : Nat :=
  let numLevels := if mipmap then log2floor (max eWidth eHeight) + 1 else 1
  -- Major Workaround Ahoy: lop off the last two mip levels (min 2).
  if mipmap then max (numLevels - 2) 2 else numLevels

/-- `compression == plBitmap.kUncompressed` (the `fmt` flag handed to
the level-data extraction). -/
def compFmt : CompType → Bool
  | CompType.uncompressed => true
  | CompType.directXCompression => false

/-- The `plMipmap(...)` construction of `finalize`: identity `i` plus
the per-entry dimensions/levels/compression and the stuffed level
data. -/
def finalizeMk (eWidth eHeight numLevels : Nat) (compression : CompType) (dxt : DxtLevel)
    (data : List Nat) (i : Nat) : MipmapObj :=
  { id := i
    width := eWidth
    height := eHeight
    numLevels := numLevels
    compType := compression
    dxt := dxt
    data := data }

/-- One iteration of `MaterialConverter.finalize` for a pending
`_Texture` identity and its consumer list: power-of-two resize, mip
level count (see `finalizeNumLevels`), compression and DXT choice,
per-level data extraction, then the per-page bucketing loop.
`nextId` seeds `plMipmap` allocation identity; the result is (next
fresh id, layer → mipmap assignment). -/
def finalizeEntry (env : Env) (nextId : Nat) (key : _Texture) (layers : List Nat) :
    Nat × List (Nat × MipmapObj) :=
  let image := key.image
  let eWidth := ensure_power_of_two image.width
  let eHeight := ensure_power_of_two image.height
  let numLevels := finalizeNumLevels key.mipmap eWidth eHeight
  let compression := if key.mipmap then CompType.directXCompression else CompType.uncompressed
  let dxt := if key.use_alpha || key.calc_alpha then DxtLevel.dxt5 else DxtLevel.dxt1
  let fmt := compFmt compression
  let data := (List.range numLevels).map (fun i => env.get_level_data image i key.calc_alpha fmt)
  let r := finalizePagesLoop env (finalizeMk eWidth eHeight numLevels compression dxt data)
    layers nextId []
  (r.1, r.2.2)

/-- `MaterialConverter.finalize`: drain the pending table in insertion
order. -/
def finalize (env : Env) (nextId : Nat) (pending : List (_Texture × List Nat)) :
    Nat × List (Nat × MipmapObj) :=
  pending.foldl
    (fun acc e =>
      let r := finalizeEntry env acc.1 e.1 e.2
      (r.1, acc.2 ++ r.2))
    (nextId, [])

/-- The shape of the table entries matching one identity after a
further stash with that identity: a fresh singleton entry, or the
retained first entry with merged flags and the appended consumer. -/
def stashEntry (prev : List (_Texture × List Nat)) (k : _Texture) (l : Nat) :
    List (_Texture × List Nat) :=
  match prev with
  | [] => [(k, [l])]
  | (k0, ls) :: rest => (k0._update k, ls ++ [l]) :: rest

/-- The single merged entry an identity group of references produces. -/
def groupEntry : List (_Texture × Nat) → List (_Texture × List Nat)
  | [] => []
  | r0 :: rest => [(rest.foldl (fun a r => a._update r.1) r0.1, (r0 :: rest).map (·.2))]


/-! ## Concrete witness scenarios

Small concrete inputs used by the witness and counterexample theorems
below; everything here evaluates in the kernel. -/

/-- A baseline session environment with trivial collaborator services. -/
def wEnv : Env :=
  { world_ambient_color := (0, 0, 0)
    fps := 30
    gl_has_alpha := fun _ => true
    make_scalar_leaf_controller := fun _ => some ()
    make_matrix44_controller := fun _ _ _ _ => some ()
    export_dynamic_env := fun _ _ => .ok 999
    get_textures_page := fun k => k
    get_level_data := fun _ i _ _ => i }

/-- Environment whose curve/controller service signals no applicable
data for every curve (allowed by the service contract). -/
def wEnvNoCtl : Env :=
  { wEnv with
    make_scalar_leaf_controller := fun _ => none
    make_matrix44_controller := fun _ _ _ _ => none }

/-- Environment whose page resolver puts every layer in one page. -/
def wTexturesPageEnv : Env := { wEnv with get_textures_page := fun _ => 0 }

/-- A 256×256 four-channel image with alpha. -/
def wImg : Image :=
  { name := "Tex", tag := 0, channels := 4, use_alpha := true, width := 256, height := 256 }

/-- First reference to `wImg`: mipmap requested, no use-alpha. -/
def wTexRef1 : _Texture :=
  { image := wImg, calc_alpha := false, use_alpha := false, mipmap := true }

/-- Second reference to `wImg` (same identity): use-alpha, no mipmap. -/
def wTexRef2 : _Texture :=
  { image := wImg, calc_alpha := false, use_alpha := true, mipmap := false }

/-- A session's reference sequence: two equal-identity references from
distinct layers. -/
def wRefs : List (_Texture × Nat) := [(wTexRef1, 10), (wTexRef2, 11)]

/-- A mipmapped full identity for the 256×256 image. -/
def wTexMip : _Texture :=
  { image := wImg, calc_alpha := false, use_alpha := true, mipmap := true }

/-- A non-mipmapped identity for the 256×256 image. -/
def wTexFlat : _Texture :=
  { image := wImg, calc_alpha := false, use_alpha := true, mipmap := false }

def wBo : BObject := { name := "Obj" }

/-- A texture of registered type NONE (keeps witness scenarios free of
image/alpha machinery). -/
def wTexNone : BTexture := { name := "TN", type := "NONE" }

/-- A stencil slot. -/
def wSlotStencil : TextureSlot :=
  { name := "S0", use_stencil := true, texture := some wTexNone }

/-- A plain slot following the stencil. -/
def wSlotBase : TextureSlot := { name := "S1", texture := some wTexNone }

/-- A material with a stencil slot followed by its base slot. -/
def wBm : BMaterial :=
  { name := "M", texture_slots := [some wSlotStencil, some wSlotBase] }

def wMat : HSGMaterial := { key := 100, name := "M" }

def wSt : ConvState := {}

/-- A material with no texture slots at all. -/
def wBmEmpty : BMaterial := { name := "E" }

/-- A material whose single qualifying slot is a stencil (no following
slot). -/
def wBm7 : BMaterial := { name := "M7", texture_slots := [some wSlotStencil] }

/-- The message substring quoted by the specification claim. -/
def claimedStencilMsg : String :=
  "wants to be a stencil, but there are no more texture slots"

/-- The message substring the source actually formats. -/
def actualStencilMsg : String :=
  "wants to be a stencil, but there are no more TextureSlots."

/-- An ENVIRONMENT_MAP texture with a static-image (unsupported)
source. -/
def wEnvMapTex : BTexture :=
  { name := "EM", type := "ENVIRONMENT_MAP", environment_map := some { source := "IMAGE" } }

def wLayer6 : Layer := { key := 5, name := "L6" }

/-- An F-curve on the per-texture opacity property. -/
def wOpacityCurve : FCurve := { data_path := "plasma_layer.opacity" }

/-- A texture animated by a single opacity curve. -/
def wTex9 : BTexture :=
  { name := "T9", type := "NONE"
    action := some { fcurves := [wOpacityCurve], frame_start := 1, frame_end := 10 } }

def wSlot9 : TextureSlot := { name := "S9", texture := some wTex9 }

def wBm9 : BMaterial := { name := "M9" }

def wBase9 : Layer := { key := 7, name := "B9" }

def wBo10 : BObject := { name := "W" }

/-- A curve on a path no sub-exporter understands. -/
def wIrrelevantCurve : FCurve := { data_path := "diffuse_color" }

/-- A texture animated only by the irrelevant curve. -/
def wTex9b : BTexture :=
  { name := "T9b", type := "NONE"
    action := some { fcurves := [wIrrelevantCurve], frame_start := 1, frame_end := 10 } }

def wSlot9b : TextureSlot := { name := "S9b", texture := some wTex9b }

/-! ## Properties of the pending-texture table -/

theorem identOf_update (k other : _Texture) : identOf (k._update other) = identOf k := rfl

theorem sameIdent_iff (a b : _Texture) : sameIdent a b = true ↔ identOf a = identOf b := by
  simp [sameIdent, identOf, Prod.ext_iff]

theorem groupEntry_append_singleton (g : List (_Texture × Nat)) (r : _Texture × Nat) :
    groupEntry (g ++ [r]) = stashEntry (groupEntry g) r.1 r.2 := by
  cases g with
  | nil => rfl
  | cons r0 rest => simp [groupEntry, stashEntry, List.foldl_append, _Texture._update]

theorem stash_filter_other (t : List (_Texture × List Nat)) (k : _Texture) (l : Nat)
    (q : _Texture) (h : identOf k ≠ identOf q) :
    (stash t k l).filter (fun e => sameIdent e.1 q) =
      t.filter (fun e => sameIdent e.1 q) := by
  induction t with
  | nil =>
    have hk : sameIdent k q = false := by
      cases hs : sameIdent k q with
      | false => rfl
      | true => exact absurd ((sameIdent_iff k q).mp hs) h
    simp [stash, hk]
  | cons e rest ih =>
    obtain ⟨k0, ls⟩ := e
    by_cases hs : sameIdent k0 k = true
    · have hk0 : identOf k0 = identOf k := (sameIdent_iff k0 k).mp hs
      have hk0q : sameIdent k0 q = false := by
        cases hq : sameIdent k0 q with
        | false => rfl
        | true => exact absurd (hk0 ▸ (sameIdent_iff k0 q).mp hq) h
      have hupdq : sameIdent (k0._update k) q = false := by
        cases hq : sameIdent (k0._update k) q with
        | false => rfl
        | true =>
          have := (sameIdent_iff _ q).mp hq
          rw [identOf_update, hk0] at this
          exact absurd this h
      simp [stash, hs, hupdq, hk0q]
    · simp only [stash, hs, if_false]
      by_cases hq : sameIdent k0 q = true
      · simp [hq, ih]
      · simp only [Bool.not_eq_true] at hq
        simp [hq, ih]

theorem stash_filter_same (t : List (_Texture × List Nat)) (k : _Texture) (l : Nat)
    (q : _Texture) (h : identOf k = identOf q) :
    (stash t k l).filter (fun e => sameIdent e.1 q) =
      stashEntry (t.filter (fun e => sameIdent e.1 q)) k l := by
  induction t with
  | nil =>
    have hk : sameIdent k q = true := (sameIdent_iff k q).mpr h
    simp [stash, stashEntry, hk]
  | cons e rest ih =>
    obtain ⟨k0, ls⟩ := e
    by_cases hs : sameIdent k0 k = true
    · have hk0 : identOf k0 = identOf k := (sameIdent_iff k0 k).mp hs
      have hk0q : sameIdent k0 q = true := (sameIdent_iff k0 q).mpr (hk0.trans h)
      have hupdq : sameIdent (k0._update k) q = true := by
        rw [sameIdent_iff, identOf_update]
        exact hk0.trans h
      simp [stash, hs, hupdq, hk0q, stashEntry]
    · have hk0q : sameIdent k0 q = false := by
        cases hq : sameIdent k0 q with
        | false => rfl
        | true =>
          have h0q := (sameIdent_iff k0 q).mp hq
          have : sameIdent k0 k = true := (sameIdent_iff k0 k).mpr (h0q.trans h.symm)
          exact absurd this (by simpa using hs)
      simp [stash, hs, hk0q, ih]

theorem stashAll_append_singleton (refs : List (_Texture × Nat)) (r : _Texture × Nat) :
    stashAll (refs ++ [r]) = stash (stashAll refs) r.1 r.2 := by
  simp [stashAll, List.foldl_append]

/-- Master characterization: the table entries matching an identity
are exactly the merged entry of that identity's reference group. -/
theorem pending_filter_spec (refs : List (_Texture × Nat)) (q : _Texture) :
    (stashAll refs).filter (fun e => sameIdent e.1 q) = groupEntry (identGroup refs q) := by
  induction refs using List.reverseRecOn with
  | nil => rfl
  | append_singleton refs r ih =>
    rw [stashAll_append_singleton]
    by_cases hs : sameIdent r.1 q = true
    · have hgroup : identGroup (refs ++ [r]) q = identGroup refs q ++ [r] := by
        simp [identGroup, List.filter_append, hs]
      rw [stash_filter_same _ _ _ _ ((sameIdent_iff r.1 q).mp hs), ih, hgroup,
        groupEntry_append_singleton]
    · have hgroup : identGroup (refs ++ [r]) q = identGroup refs q := by
        simp [identGroup, List.filter_append, hs]
      rw [stash_filter_other _ _ _ _ (fun hc => hs ((sameIdent_iff r.1 q).mpr hc)), ih, hgroup]

theorem foldl_update_fields (rest : List (_Texture × Nat)) (k0 : _Texture) :
    (rest.foldl (fun a r => a._update r.1) k0).use_alpha
        = (k0.use_alpha || rest.any (fun r => r.1.use_alpha)) ∧
      (rest.foldl (fun a r => a._update r.1) k0).mipmap
        = (k0.mipmap || rest.any (fun r => r.1.mipmap)) := by
  induction rest generalizing k0 with
  | nil => simp
  | cons r rest ih =>
    simp only [List.foldl_cons, List.any_cons]
    rcases ih (k0._update r.1) with ⟨hu, hm⟩
    constructor
    · rw [hu]; simp [_Texture._update, Bool.or_assoc]
    · rw [hm]; simp [_Texture._update, Bool.or_assoc]

/-- C1: for an export session whose stash sequence contains two or more
texture references of equal `TextureIdentity` (same image, same
`calc_alpha`), the pending-texture table holds exactly one entry for
that identity; the entry's `use_alpha` and `mipmap` are the logical OR
over all contributing references, and its consumer list is exactly the
contributing layers, each once, in first-seen order. -/
theorem C1_pending_table_merge (refs : List (_Texture × Nat)) (q : _Texture)
    (h2 : 2 ≤ (identGroup refs q).length)
    (hnd : (refs.map (fun r => r.2)).Nodup) :
    ((stashAll refs).filter (fun e => sameIdent e.1 q)).length = 1 ∧
    ∀ e ∈ (stashAll refs).filter (fun e => sameIdent e.1 q),
      e.1.use_alpha = (identGroup refs q).any (fun r => r.1.use_alpha) ∧
      e.1.mipmap = (identGroup refs q).any (fun r => r.1.mipmap) ∧
      e.2 = (identGroup refs q).map (fun r => r.2) ∧
      e.2.Nodup := by
  have hspec := pending_filter_spec refs q
  have hnodup : ((identGroup refs q).map (fun r => r.2)).Nodup := by
    have hsub : List.Sublist (identGroup refs q) refs := List.filter_sublist refs
    exact List.Nodup.sublist (hsub.map (fun r => r.2)) hnd
  cases hg : identGroup refs q with
  | nil => rw [hg] at h2; simp at h2
  | cons r0 rest =>
    rw [hg] at hspec
    rw [hspec]
    refine ⟨rfl, ?_⟩
    intro e he
    simp only [groupEntry, List.mem_singleton] at he
    subst he
    rcases foldl_update_fields rest r0.1 with ⟨hu, hm⟩
    refine ⟨?_, ?_, rfl, ?_⟩
    · simpa [List.any_cons] using hu
    · simpa [List.any_cons] using hm
    · rw [hg] at hnodup; exact hnodup

/-- Witness for C1 at a concrete session: two references to the same
image identity from layers 10 and 11, one requesting mipmaps, the
other use-alpha. -/
theorem C1_pending_table_merge_witness :
    2 ≤ (identGroup wRefs wTexRef1).length ∧
    (wRefs.map (fun r => r.2)).Nodup ∧
    (((stashAll wRefs).filter (fun e => sameIdent e.1 wTexRef1)).length = 1 ∧
     ∀ e ∈ (stashAll wRefs).filter (fun e => sameIdent e.1 wTexRef1),
       e.1.use_alpha = (identGroup wRefs wTexRef1).any (fun r => r.1.use_alpha) ∧
       e.1.mipmap = (identGroup wRefs wTexRef1).any (fun r => r.1.mipmap) ∧
       e.2 = (identGroup wRefs wTexRef1).map (fun r => r.2) ∧
       e.2.Nodup) :=
  ⟨by decide, by decide, C1_pending_table_merge wRefs wTexRef1 (by decide) (by decide)⟩

/-! ## Per-slot layer properties (opacity / alpha halo) -/

/-- C8: the custom layer-property step divides the per-texture opacity
override by 100 into the layer's opacity (inside [0,1] whenever the
slider is within its 0–100 range), forces the alpha-blend flag iff the
override is < 100, and sets the high-threshold alpha-test flag iff the
alpha-halo toggle is on (so a halo texture at opacity 100 gets the
alpha-test flag and no opacity-driven alpha blending).  Concretely:
opacity 50 over empty blend flags yields opacity 1/2 with alpha
blending forced, and a halo texture at opacity 100 over empty flags
yields the alpha-test flag with alpha blending still clear.  This step
(`material.py` lines 198–204) is applied to every slot's layer before
type dispatch, in particular to every non-stencil slot. -/
theorem C8_opacity_halo :
    (∀ (props : PlasmaLayerProps) (layer : Layer),
      (applyLayerProps props layer).opacity = (props.opacity : ℚ) / 100 ∧
      (props.opacity ≤ 100 →
        0 ≤ (applyLayerProps props layer).opacity ∧ (applyLayerProps props layer).opacity ≤ 1) ∧
      ((applyLayerProps props layer).state.blendFlags.blendAlpha
        = (layer.state.blendFlags.blendAlpha || decide (props.opacity < 100))) ∧
      ((applyLayerProps props layer).state.blendFlags.blendAlphaTestHigh
        = (layer.state.blendFlags.blendAlphaTestHigh || props.alpha_halo))) ∧
    (applyLayerProps { opacity := 50 } { key := 0, name := "L" }).opacity = 1 / 2 ∧
    (applyLayerProps { opacity := 50 } { key := 0, name := "L" }).state.blendFlags.blendAlpha
      = true ∧
    (applyLayerProps { opacity := 100, alpha_halo := true }
      { key := 0, name := "L" }).state.blendFlags.blendAlphaTestHigh = true ∧
    (applyLayerProps { opacity := 100, alpha_halo := true }
      { key := 0, name := "L" }).state.blendFlags.blendAlpha = false := by
  refine ⟨?_, ?_, by rfl, by rfl, by rfl⟩
  · intro props layer
    have hops : (applyLayerProps props layer).opacity = (props.opacity : ℚ) / 100 := by
      unfold applyLayerProps
      split_ifs <;> rfl
    refine ⟨hops, ?_, ?_, ?_⟩
    · intro hle
      rw [hops]
      constructor
      · positivity
      · rw [div_le_one (by norm_num)]
        exact_mod_cast hle
    · unfold applyLayerProps
      split_ifs with h1 h2 h2 <;> simp [h1, h2]
    · unfold applyLayerProps
      split_ifs with h1 h2 h2 <;> simp [h1, h2]
  · show ((50 : ℚ) / 100 = 1 / 2)
    norm_num

/-- Witness for C8: the slider range hypothesis discharged at the
opacity-50 scenario. -/
theorem C8_opacity_halo_witness :
    (50 : Nat) ≤ 100 ∧
    (0 ≤ (applyLayerProps { opacity := 50 } { key := 0, name := "L" }).opacity ∧
      (applyLayerProps { opacity := 50 } { key := 0, name := "L" }).opacity ≤ 1) :=
  ⟨by decide, ((C8_opacity_halo.1 { opacity := 50 } { key := 0, name := "L" }).2.1 (by decide))⟩

/-! ## Environment-map export (unsupported sources) -/

/-- C6 (code bug): for an environment-map texture whose source is not
STATIC/ANIMATED the exporter does emit the warning — but it then runs
`layer.texture = pl_env.key` with `pl_env = None`, so instead of
continuing with a textureless layer the export dies with an
`AttributeError` (the environment-map shade flag having been set on
the abandoned layer).  The claim (and the source's own warning text
"will not be exported!") describe a warn-and-continue degradation the
code does not implement. -/
theorem C6_envmap_unsupported_crash (env : Env) (bo : BObject) (st : ConvState)
    (layer : Layer) (texture : BTexture) (bl_env : EnvironmentMap)
    (henv : texture.environment_map = some bl_env)
    (hsrc : (bl_env.source == "STATIC" || bl_env.source == "ANIMATED") = false) :
    _export_texture_type_environment_map env bo st layer texture =
      ({ st with warnings := st.warnings ++
          ["IMAGE EnvironmentMaps are not supported. \x27" ++ layer.name ++
            "\x27 will not be exported!"] }, .error .attributeError) := by
  unfold _export_texture_type_environment_map
  rw [henv]
  simp [hsrc]

/-- Witness for C6 at the failing input: an ENVIRONMENT_MAP texture
with source "IMAGE". -/
theorem C6_envmap_unsupported_crash_witness :
    wEnvMapTex.environment_map = some { source := "IMAGE" } ∧
    ((("IMAGE" : String) == "STATIC" || ("IMAGE" : String) == "ANIMATED") = false) ∧
    _export_texture_type_environment_map wEnv wBo wSt wLayer6 wEnvMapTex =
      ({ wSt with warnings := wSt.warnings ++
          ["IMAGE EnvironmentMaps are not supported. \x27" ++ wLayer6.name ++
            "\x27 will not be exported!"] }, .error .attributeError) :=
  ⟨rfl, by decide,
    C6_envmap_unsupported_crash wEnv wBo wSt wLayer6 wEnvMapTex { source := "IMAGE" }
      rfl (by decide)⟩

/-! ## Stencil slot at the end of the slot list -/

theorem strContainsAux_append (pre s pat : List Char)
    (h : strContainsAux pat s = true) : strContainsAux pat (pre ++ s) = true := by
  induction pre with
  | nil => simpa using h
  | cons c rest ih => simp [strContainsAux, ih]

theorem strContainsB_append_right (a b pat : String)
    (h : strContainsB b pat = true) : strContainsB (a ++ b) pat = true := by
  have hdata : (a ++ b).data = a.data ++ b.data := rfl
  unfold strContainsB at h ⊢
  rw [hdata]
  exact strContainsAux_append a.data b.data pat.data h

/-- C7 amended: a stencil slot with no following slot raises the fatal
stencil `ExportError`; the message contains
"wants to be a stencil, but there are no more TextureSlots." (the
source formats "TextureSlots", not "texture slots" as the claim
quotes). -/
theorem C7_stencil_last_slot_error (env : Env) (bo : BObject) (bm : BMaterial)
    (st : ConvState) (hsgmat : HSGMaterial) (slots : List TextureSlot) (idx : Nat)
    (slot : TextureSlot) (texture : BTexture)
    (hslot : slots[idx]? = some slot)
    (hsten : slot.use_stencil = true)
    (htex : slot.texture = some texture)
    (hlast : slots.length = idx + 1) :
    (∃ st' : ConvState,
      _export_texture_slot env bo bm st hsgmat slots idx =
        (st', .error (.exportError ("Texture Slot \x27" ++ slot.name ++
          "\x27 wants to be a stencil, but there are no more TextureSlots.")))) ∧
    strContainsB ("Texture Slot \x27" ++ slot.name ++
        "\x27 wants to be a stencil, but there are no more TextureSlots.")
      actualStencilMsg = true := by
  constructor
  · unfold _export_texture_slot
    rw [hlast]
    simp only [_export_texture_slotF, hslot, htex, hsten, allocKey]
    simp [hlast]
  · have hbase : strContainsB ("\x27 wants to be a stencil, but there are no more TextureSlots.")
        actualStencilMsg = true := by decide
    have := strContainsB_append_right
      ("Texture Slot \x27" ++ slot.name)
      ("\x27 wants to be a stencil, but there are no more TextureSlots.")
      actualStencilMsg hbase
    simpa [String.append_assoc] using this

/-- Witness for C7's amended statement: a material whose only
qualifying slot is a stencil. -/
theorem C7_stencil_last_slot_error_witness :
    ([wSlotStencil][0]? = some wSlotStencil) ∧
    (wSlotStencil.use_stencil = true) ∧
    (wSlotStencil.texture = some wTexNone) ∧
    ([wSlotStencil].length = 0 + 1) ∧
    ((∃ st' : ConvState,
      _export_texture_slot wEnv wBo wBm7 wSt wMat [wSlotStencil] 0 =
        (st', .error (.exportError ("Texture Slot \x27" ++ wSlotStencil.name ++
          "\x27 wants to be a stencil, but there are no more TextureSlots.")))) ∧
     strContainsB ("Texture Slot \x27" ++ wSlotStencil.name ++
        "\x27 wants to be a stencil, but there are no more TextureSlots.")
      actualStencilMsg = true) :=
  ⟨rfl, rfl, rfl, rfl,
    C7_stencil_last_slot_error wEnv wBo wBm7 wSt wMat [wSlotStencil] 0 wSlotStencil wTexNone
      rfl rfl rfl rfl⟩

/-- C7 counterexample (to the claim as quoted): exporting the material
whose only slot is a trailing stencil raises the stencil export error
and aborts `export_material`, but the raised message does not contain
the claim's quoted string "wants to be a stencil, but there are no
more texture slots" (the source writes "TextureSlots."). -/
theorem C7_stencil_message_counterexample :
    (export_material wEnv wSt [] wBo wBm7).2.2 =
      .error (.exportError
        ("Texture Slot \x27S0\x27 wants to be a stencil, but there are no more TextureSlots.")) ∧
    strContainsB
      "Texture Slot \x27S0\x27 wants to be a stencil, but there are no more TextureSlots."
      claimedStencilMsg = false := by
  constructor
  · rfl
  · decide

/-! ## Layer animations with no produced controller -/

/-- C9 amended: when the gathered curves are non-empty but neither
sub-exporter produces a controller, `_export_layer_animations` returns
the base layer itself — no `plLayerAnimation` wrapper is allocated and
the converter state is untouched — and this is not an error; the base
layer comes back bit-identical unless some gathered curve targets the
`plasma_layer.opacity` data path, in which case the opacity
sub-exporter has already forced the alpha-blend flag on it before the
controller conversion declined. -/
theorem C9_no_controller_returns_base (env : Env) (bm : BMaterial) (tex_slot : TextureSlot)
    (texture : BTexture) (idx : Nat) (st : ConvState) (base_layer : Layer)
    (hne : (gatherLayerFCurves bm texture idx).isEmpty = false)
    (hop : (_export_layer_opacity_animation env base_layer
      (gatherLayerFCurves bm texture idx)).2 = none)
    (htr : _export_layer_transform_animation env tex_slot
      (gatherLayerFCurves bm texture idx) = none) :
    _export_layer_animations env bm tex_slot texture idx st base_layer =
      (st, .plain (_export_layer_opacity_animation env base_layer
        (gatherLayerFCurves bm texture idx)).1) ∧
    ((gatherLayerFCurves bm texture idx).find?
        (fun f => f.data_path == "plasma_layer.opacity") = none →
      (_export_layer_opacity_animation env base_layer
        (gatherLayerFCurves bm texture idx)).1 = base_layer) := by
  constructor
  · unfold _export_layer_animations
    simp [hne, hop, htr]
  · intro hfind
    unfold _export_layer_opacity_animation
    rw [hfind]

/-- Witness for C9's amended statement: an action holding only a curve
on an unhandled data path, with a controller service that declines. -/
theorem C9_no_controller_returns_base_witness :
    ((gatherLayerFCurves wBm9 wTex9b 0).isEmpty = false) ∧
    ((_export_layer_opacity_animation wEnvNoCtl wBase9
        (gatherLayerFCurves wBm9 wTex9b 0)).2 = none) ∧
    (_export_layer_transform_animation wEnvNoCtl wSlot9b
        (gatherLayerFCurves wBm9 wTex9b 0) = none) ∧
    (_export_layer_animations wEnvNoCtl wBm9 wSlot9b wTex9b 0 wSt wBase9 =
      (wSt, .plain (_export_layer_opacity_animation wEnvNoCtl wBase9
        (gatherLayerFCurves wBm9 wTex9b 0)).1) ∧
     ((gatherLayerFCurves wBm9 wTex9b 0).find?
        (fun f => f.data_path == "plasma_layer.opacity") = none →
      (_export_layer_opacity_animation wEnvNoCtl wBase9
        (gatherLayerFCurves wBm9 wTex9b 0)).1 = wBase9)) :=
  ⟨by decide, by decide, by decide,
    C9_no_controller_returns_base wEnvNoCtl wBm9 wSlot9b wTex9b 0 wSt wBase9
      (by decide) (by decide) (by decide)⟩

/-- C9 counterexample (to the claim as stated): one gathered curve on
`plasma_layer.opacity` whose controller conversion signals no
applicable data (allowed by the curve-service contract).  No
sub-exporter produces a controller and the exporter returns the base
layer — but with the alpha-blend flag newly set, so the base layer's
state *was* modified. -/
theorem C9_state_mutation_counterexample :
    ((gatherLayerFCurves wBm9 wTex9 0).isEmpty = false) ∧
    ((_export_layer_opacity_animation wEnvNoCtl wBase9
        (gatherLayerFCurves wBm9 wTex9 0)).2 = none) ∧
    (_export_layer_transform_animation wEnvNoCtl wSlot9
        (gatherLayerFCurves wBm9 wTex9 0) = none) ∧
    (_export_layer_animations wEnvNoCtl wBm9 wSlot9 wTex9 0 wSt wBase9 =
      (wSt, .plain { wBase9 with state := { wBase9.state with
        blendFlags := { wBase9.state.blendFlags with blendAlpha := true } } })) ∧
    (wBase9.state.blendFlags.blendAlpha = false) := by
  refine ⟨by decide, by decide, by decide, ?_, by decide⟩
  decide

/-! ## Material registration and lookup -/

theorem obj2matAdd_lookup_same (om : List (BObject × List Nat)) (bo : BObject) (k : Nat) :
    (obj2matAdd om bo k).lookup bo = some (((om.lookup bo).getD []) ++ [k]) := by
  induction om with
  | nil => simp [obj2matAdd, List.lookup]
  | cons e rest ih =>
    obtain ⟨b, keys⟩ := e
    by_cases hb : b = bo
    · subst hb
      simp [obj2matAdd, List.lookup]
    · have hbeq : (b == bo) = false := by simp [hb]
      have hbeq2 : (bo == b) = false := by simp [Ne.symm hb]
      simp [obj2matAdd, List.lookup, hbeq, hbeq2, ih]

theorem obj2matAdd_lookup_other (om : List (BObject × List Nat)) (bo : BObject) (k : Nat)
    (bo' : BObject) (h : bo ≠ bo') :
    (obj2matAdd om bo k).lookup bo' = om.lookup bo' := by
  have hne : (bo' == bo) = false := by simp [Ne.symm h]
  induction om with
  | nil => simp [obj2matAdd, List.lookup, hne]
  | cons e rest ih =>
    obtain ⟨b, keys⟩ := e
    by_cases hb : b = bo
    · subst hb
      simp [obj2matAdd, List.lookup, hne, ih]
    · have hbeq : (b == bo) = false := by simp [hb]
      simp [obj2matAdd, List.lookup, hbeq, ih]

/-- `export_material` registers exactly its freshly allocated material
key for the object — and only on success. -/
theorem export_material_om_ok (env : Env) (st : ConvState) (om : List (BObject × List Nat))
    (bo : BObject) (bm : BMaterial) (st' : ConvState) (om' : List (BObject × List Nat))
    (k : Nat) (m : HSGMaterial)
    (h : export_material env st om bo bm = (st', om', .ok (k, m))) :
    k = st.nextKey ∧ om' = obj2matAdd om bo st.nextKey := by
  unfold export_material at h
  simp only [allocKey] at h
  rcases hloop : exportSlotsLoopF env bo bm (qualifyingSlots bm)
      ((qualifyingSlots bm).length + 1) { st with nextKey := st.nextKey + 1 }
      { key := st.nextKey, name := bm.name } 0 with ⟨st1, r⟩
  rw [hloop] at h
  cases r with
  | error e => simp at h
  | ok hsgmat =>
    simp only [Prod.mk.injEq, Except.ok.injEq] at h
    exact ⟨h.2.2.1.symm, h.2.1.symm⟩

/-- `export_material` leaves the registration table untouched on
error. -/
theorem export_material_om_error (env : Env) (st : ConvState) (om : List (BObject × List Nat))
    (bo : BObject) (bm : BMaterial) (st' : ConvState) (om' : List (BObject × List Nat))
    (e : ExpErr)
    (h : export_material env st om bo bm = (st', om', .error e)) :
    om' = om := by
  unfold export_material at h
  simp only [allocKey] at h
  rcases hloop : exportSlotsLoopF env bo bm (qualifyingSlots bm)
      ((qualifyingSlots bm).length + 1) { st with nextKey := st.nextKey + 1 }
      { key := st.nextKey, name := bm.name } 0 with ⟨st1, r⟩
  rw [hloop] at h
  cases r with
  | error e2 =>
    simp only [Prod.mk.injEq] at h
    exact h.2.1.symm
  | ok hsgmat => simp at h

/-- Session induction: after a successful run from registration table
`om`, the table lookup for any object is its previous entry extended
with the ledger's `export_material` keys for that object. -/
theorem runExports_lookup (env : Env) (calls : List ConvCall) :
    ∀ (st : ConvState) (om : List (BObject × List Nat)) st' om' ledger,
    runExports env st om calls = (st', om', .ok ledger) →
    ∀ bo, om'.lookup bo =
      match om.lookup bo, matKeysOf ledger bo with
      | some l, ks => some (l ++ ks)
      | none, [] => none
      | none, k :: ks => some (k :: ks) := by
  induction calls with
  | nil =>
    intro st om st' om' ledger h bo
    unfold runExports at h
    simp only [Prod.mk.injEq, Except.ok.injEq] at h
    obtain ⟨h1, h2, h3⟩ := h
    subst h2; subst h3
    simp only [matKeysOf, List.filter_nil, List.map_nil]
    cases hl : List.lookup bo om <;> simp [hl]
  | cons c rest ih =>
    intro st om st' om' ledger h bo
    cases c with
    | material bo0 bm0 =>
      unfold runExports at h
      rcases hm : export_material env st om bo0 bm0 with ⟨st1, om1, r1⟩
      rw [hm] at h
      cases r1 with
      | error e => simp at h
      | ok km =>
        obtain ⟨key, mat⟩ := km
        dsimp only at h
        rcases hr : runExports env st1 om1 rest with ⟨st2, om2, r2⟩
        rw [hr] at h
        cases r2 with
        | error e => simp at h
        | ok ledger1 =>
          simp only [Prod.mk.injEq, Except.ok.injEq] at h
          obtain ⟨h1, h2, h3⟩ := h
          subst h2
          subst h3
          obtain ⟨hkey, hom1⟩ := export_material_om_ok env st om bo0 bm0 st1 om1 key mat hm
          subst hkey
          have ihr := ih st1 om1 st2 om2 ledger1 hr bo
          rw [ihr, hom1]
          by_cases hb : bo0 = bo
          · subst hb
            have hmk : matKeysOf ((true, bo0, st.nextKey) :: ledger1) bo0 =
                st.nextKey :: matKeysOf ledger1 bo0 := by
              simp [matKeysOf, List.filter_cons]
            rw [hmk, obj2matAdd_lookup_same]
            cases hl : List.lookup bo0 om <;> simp [hl]
          · have hbeq : (bo0 == bo) = false := by simp [hb]
            have hmk : matKeysOf ((true, bo0, st.nextKey) :: ledger1) bo =
                matKeysOf ledger1 bo := by
              simp [matKeysOf, List.filter_cons, hbeq]
            rw [hmk, obj2matAdd_lookup_other om bo0 st.nextKey bo hb]
    | waveset bo0 bm0 =>
      unfold runExports at h
      dsimp only at h
      rcases hr : runExports env (export_waveset_material env st bo0 bm0).1 om rest
        with ⟨st2, om2, r2⟩
      rw [hr] at h
      cases r2 with
      | error e => simp at h
      | ok ledger1 =>
        simp only [Prod.mk.injEq, Except.ok.injEq] at h
        obtain ⟨h1, h2, h3⟩ := h
        subst h2
        subst h3
        have ihr := ih _ om st2 om2 ledger1 hr bo
        have hmk : matKeysOf ((false, bo0, (export_waveset_material env st bo0 bm0).2.1) :: ledger1) bo =
            matKeysOf ledger1 bo := by
          simp [matKeysOf, List.filter_cons]
        rw [hmk, ihr]

/-- C10 amended: in a fresh session, `get_materials` raises `KeyError`
for every object with no `export_material` call on record — including
objects exported only through `export_waveset_material`, which never
registers its material — and returns the full list of
`export_material` keys in call order for every object with at least
one such call. -/
theorem C10_get_materials (env : Env) (calls : List ConvCall) (st : ConvState)
    (st' : ConvState) (om' : List (BObject × List Nat)) (ledger : List (Bool × BObject × Nat))
    (hrun : runExports env st [] calls = (st', om', .ok ledger)) :
    ∀ bo, get_materials om' bo =
      match matKeysOf ledger bo with
      | [] => .error .keyError
      | k :: ks => .ok (k :: ks) := by
  intro bo
  have h := runExports_lookup env calls st [] st' om' ledger hrun bo
  simp only [List.lookup_nil] at h
  unfold get_materials
  rw [h]
  cases matKeysOf ledger bo <;> simp

/-- Witness for C10's amended statement: a session with one
`export_material` call; `get_materials` returns that call's key. -/
theorem C10_get_materials_witness :
    (runExports wEnv wSt [] [ConvCall.material wBo10 wBmEmpty] =
      ((runExports wEnv wSt [] [ConvCall.material wBo10 wBmEmpty]).1,
       (runExports wEnv wSt [] [ConvCall.material wBo10 wBmEmpty]).2.1,
       .ok [(true, wBo10, 0)])) ∧
    get_materials (runExports wEnv wSt [] [ConvCall.material wBo10 wBmEmpty]).2.1 wBo10 =
      .ok [0] := by
  refine ⟨by rfl, ?_⟩
  have h := C10_get_materials wEnv [ConvCall.material wBo10 wBmEmpty] wSt _ _
    [(true, wBo10, 0)] (by rfl) wBo10
  simpa [matKeysOf] using h

/-- C10 counterexample (to the claim as stated): a session consisting
of one `export_waveset_material` call for an object.  The object has
been exported (the ledger records its waveset material key 0), yet
`get_materials` raises `KeyError` instead of returning the material
list, because `export_waveset_material` never writes `_obj2mat`. -/
theorem C10_waveset_keyerror_counterexample :
    (runExports wEnv wSt [] [ConvCall.waveset wBo10 wBmEmpty]).2.2 =
      .ok [(false, wBo10, 0)] ∧
    get_materials (runExports wEnv wSt [] [ConvCall.waveset wBo10 wBmEmpty]).2.1 wBo10 =
      .error .keyError := by
  constructor
  · rfl
  · rfl

/-! ## Default layer synthesis -/

/-- C5: a material with no qualifying texture slot exports exactly one
auto-generated layer (named `<material>_AutoLayer`) carrying only the
propagated material color/shading settings — a freshly constructed
default layer passed through `_propagate_material_settings`, with no
texture attached — and, in general, every successfully exported
material has at least one layer. -/
theorem C5_default_layer :
    (∀ (env : Env) (st : ConvState) (om : List (BObject × List Nat))
      (bo : BObject) (bm : BMaterial),
      qualifyingSlots bm = [] →
      export_material env st om bo bm =
        ({ st with nextKey := st.nextKey + 1 + 1 }, obj2matAdd om bo st.nextKey,
          .ok (st.nextKey,
            { key := st.nextKey
              name := bm.name
              layers := [.plain (_propagate_material_settings env bm
                { key := st.nextKey + 1, name := bm.name ++ "_AutoLayer" })] }))) ∧
    (∀ (env : Env) (st : ConvState) (om : List (BObject × List Nat))
      (bo : BObject) (bm : BMaterial) st' om' k m,
      export_material env st om bo bm = (st', om', .ok (k, m)) → m.layers ≠ []) := by
  constructor
  · intro env st om bo bm hq
    simp [export_material, hq, exportSlotsLoopF, allocKey]
  · intro env st om bo bm st' om' k m h
    unfold export_material at h
    simp only [allocKey] at h
    rcases hloop : exportSlotsLoopF env bo bm (qualifyingSlots bm)
        ((qualifyingSlots bm).length + 1) { st with nextKey := st.nextKey + 1 }
        { key := st.nextKey, name := bm.name } 0 with ⟨st1, r⟩
    rw [hloop] at h
    cases r with
    | error e => simp at h
    | ok hsg1 =>
      by_cases hemp : hsg1.layers.isEmpty
      · simp only [hemp, if_true, Prod.mk.injEq, Except.ok.injEq] at h
        rw [← h.2.2.2]
        simp
      · simp only [hemp, if_false, Bool.false_eq_true, Prod.mk.injEq, Except.ok.injEq] at h
        rw [← h.2.2.2]
        simpa using hemp

/-- Witness for C5: the slot-free material `wBmEmpty`. -/
theorem C5_default_layer_witness :
    qualifyingSlots wBmEmpty = [] ∧
    export_material wEnv wSt [] wBo wBmEmpty =
      ({ wSt with nextKey := wSt.nextKey + 1 + 1 }, obj2matAdd [] wBo wSt.nextKey,
        .ok (wSt.nextKey,
          { key := wSt.nextKey
            name := wBmEmpty.name
            layers := [.plain (_propagate_material_settings wEnv wBmEmpty
              { key := wSt.nextKey + 1, name := wBmEmpty.name ++ "_AutoLayer" })] })) ∧
    ∀ m, export_material wEnv wSt [] wBo wBmEmpty =
      (({ wSt with nextKey := wSt.nextKey + 1 + 1 } : ConvState),
        obj2matAdd [] wBo wSt.nextKey, .ok (wSt.nextKey, m)) → m.layers ≠ [] :=
  ⟨by decide, C5_default_layer.1 wEnv wSt [] wBo wBmEmpty (by decide),
    fun m h => C5_default_layer.2 wEnv wSt [] wBo wBmEmpty _ _ _ m h⟩

/-! ## Finalize: page bucketing and mip levels -/

theorem lookup_append_left {α β : Type} [BEq α] (l d : List (α × β)) (a : α) (m : β)
    (h : l.lookup a = some m) : (l ++ d).lookup a = some m := by
  induction l with
  | nil => simp [List.lookup] at h
  | cons e rest ih =>
    obtain ⟨k, v⟩ := e
    cases hk : a == k with
    | true => simpa [List.lookup, hk] using h
    | false =>
      simp only [List.lookup, hk] at h
      simpa [List.lookup, hk] using ih h

theorem lookup_append_singleton_none {α β : Type} [BEq α] [LawfulBEq α]
    (l : List (α × β)) (a : α) (m : β)
    (h : l.lookup a = none) : (l ++ [(a, m)]).lookup a = some m := by
  induction l with
  | nil => simp [List.lookup]
  | cons e rest ih =>
    obtain ⟨k, v⟩ := e
    cases hk : a == k with
    | true => simp [List.lookup, hk] at h
    | false =>
      simp only [List.lookup, hk] at h
      simpa [List.lookup, hk] using ih h

theorem mem_of_lookup_eq_some {α β : Type} [BEq α] [LawfulBEq α]
    (l : List (α × β)) (a : α) (m : β)
    (h : l.lookup a = some m) : (a, m) ∈ l := by
  induction l with
  | nil => simp [List.lookup] at h
  | cons e rest ih =>
    obtain ⟨k, v⟩ := e
    cases hk : a == k with
    | true =>
      simp only [List.lookup, hk, Option.some.injEq] at h
      have hak : a = k := eq_of_beq hk
      subst hak; subst h
      exact List.mem_cons_self _ _
    | false =>
      simp only [List.lookup, hk] at h
      exact List.mem_cons_of_mem _ (ih h)

/-- Invariant of the page bucketing loop: the page dict only grows,
with fresh identities all carrying the entry's one content, and every
assignment resolves through the final page dict. -/
theorem finalizePagesLoop_spec (env : Env) (mk : Nat → MipmapObj)
    (hmkid : ∀ i, (mk i).id = i)
    (hmkc : ∀ i, mipContent (mk i) = mipContent (mk 0)) :
    ∀ (layers : List Nat) (nextId : Nat) (pages : List (Nat × MipmapObj))
      (nid : Nat) (pgs asg : List (Nat × MipmapObj)),
      finalizePagesLoop env mk layers nextId pages = (nid, pgs, asg) →
      (∀ p ∈ pages, p.2.id < nextId ∧ mipContent p.2 = mipContent (mk 0)) →
      ((pages.map (fun p => p.2.id)).Nodup) →
      nextId ≤ nid ∧
      (∃ tailPages, pgs = pages ++ tailPages) ∧
      (∀ p ∈ pgs, p.2.id < nid ∧ mipContent p.2 = mipContent (mk 0)) ∧
      ((pgs.map (fun p => p.2.id)).Nodup) ∧
      asg.map Prod.fst = layers ∧
      (∀ pr ∈ asg, pgs.lookup (env.get_textures_page pr.1) = some pr.2) := by
  intro layers
  induction layers with
  | nil =>
    intro nextId pages nid pgs asg h hinv hnd
    simp only [finalizePagesLoop, Prod.mk.injEq] at h
    obtain ⟨h1, h2, h3⟩ := h
    subst h1; subst h2; subst h3
    exact ⟨Nat.le_refl _, ⟨[], by simp⟩, hinv, hnd, rfl, by simp⟩
  | cons lk rest ih =>
    intro nextId pages nid pgs asg h hinv hnd
    rw [finalizePagesLoop] at h
    rcases hpl : pages.lookup (env.get_textures_page lk) with _ | m
    · rw [hpl] at h
      dsimp only at h
      rcases hr : finalizePagesLoop env mk rest (nextId + 1)
          (pages ++ [(env.get_textures_page lk, mk nextId)]) with ⟨nid1, pgs1, asg1⟩
      rw [hr] at h
      simp only [Prod.mk.injEq] at h
      obtain ⟨h1, h2, h3⟩ := h
      subst h1; subst h2; subst h3
      have hinv' : ∀ p ∈ pages ++ [(env.get_textures_page lk, mk nextId)],
          p.2.id < nextId + 1 ∧ mipContent p.2 = mipContent (mk 0) := by
        intro p hp
        rcases List.mem_append.mp hp with hp | hp
        · exact ⟨Nat.lt_succ_of_lt (hinv p hp).1, (hinv p hp).2⟩
        · simp only [List.mem_singleton] at hp
          subst hp
          exact ⟨by rw [hmkid]; exact Nat.lt_succ_self _, hmkc nextId⟩
      have hnd' : ((pages ++ [(env.get_textures_page lk, mk nextId)]).map
          (fun p => p.2.id)).Nodup := by
        rw [List.map_append, List.nodup_append]
        refine ⟨hnd, by simp, ?_⟩
        intro x hx
        simp only [List.map_cons, List.map_nil, List.mem_singleton]
        rcases List.mem_map.mp hx with ⟨p, hp, hpx⟩
        have := (hinv p hp).1
        rw [hmkid]
        omega
      obtain ⟨ha, ⟨tail1, htail⟩, hmem, hnd1, hmap, hassign⟩ :=
        ih (nextId + 1) _ nid1 pgs1 asg1 hr hinv' hnd'
      refine ⟨by omega, ⟨(env.get_textures_page lk, mk nextId) :: tail1, by
        rw [htail, List.append_assoc]; rfl⟩, hmem, hnd1, by simp [hmap], ?_⟩
      intro pr hpr
      rcases List.mem_cons.mp hpr with hpr | hpr
      · subst hpr
        rw [htail]
        exact lookup_append_left _ _ _ _ (lookup_append_singleton_none pages _ _ hpl)
      · exact hassign pr hpr
    · rw [hpl] at h
      dsimp only at h
      rcases hr : finalizePagesLoop env mk rest nextId pages with ⟨nid1, pgs1, asg1⟩
      rw [hr] at h
      simp only [Prod.mk.injEq] at h
      obtain ⟨h1, h2, h3⟩ := h
      subst h1; subst h2; subst h3
      obtain ⟨ha, ⟨tail1, htail⟩, hmem, hnd1, hmap, hassign⟩ :=
        ih nextId pages nid1 pgs1 asg1 hr hinv hnd
      refine ⟨ha, ⟨tail1, htail⟩, hmem, hnd1, by simp [hmap], ?_⟩
      intro pr hpr
      rcases List.mem_cons.mp hpr with hpr | hpr
      · subst hpr
        rw [htail]
        exact lookup_append_left _ _ _ _ hpl
      · exact hassign pr hpr

/-- Pairwise consequences for the assignment produced from an empty
page dict: consumer order is preserved; equal pages share the one
mipmap object, distinct pages get distinct objects of equal content;
and every object carries the entry's computed content. -/
theorem finalizeLoop_pairwise (env : Env) (mk : Nat → MipmapObj)
    (hmkid : ∀ i, (mk i).id = i)
    (hmkc : ∀ i, mipContent (mk i) = mipContent (mk 0))
    (layers : List Nat) (nextId : Nat) :
    ((finalizePagesLoop env mk layers nextId []).2.2.map Prod.fst = layers) ∧
    (∀ pr ∈ (finalizePagesLoop env mk layers nextId []).2.2,
      mipContent pr.2 = mipContent (mk 0)) ∧
    (∀ p1 ∈ (finalizePagesLoop env mk layers nextId []).2.2,
     ∀ p2 ∈ (finalizePagesLoop env mk layers nextId []).2.2,
      (env.get_textures_page p1.1 = env.get_textures_page p2.1 → p1.2 = p2.2) ∧
      (env.get_textures_page p1.1 ≠ env.get_textures_page p2.1 →
        p1.2.id ≠ p2.2.id ∧ mipContent p1.2 = mipContent p2.2)) := by
  rcases hr : finalizePagesLoop env mk layers nextId [] with ⟨nid, pgs, asg⟩
  obtain ⟨ha, hext, hmem, hnd, hmap, hassign⟩ :=
    finalizePagesLoop_spec env mk hmkid hmkc layers nextId [] nid pgs asg hr
      (by simp) (by simp)
  refine ⟨hmap, ?_, ?_⟩
  · intro pr hpr
    have hl := hassign pr hpr
    have hm := mem_of_lookup_eq_some pgs _ _ hl
    exact (hmem _ hm).2
  · intro p1 hp1 p2 hp2
    have hl1 := hassign p1 hp1
    have hl2 := hassign p2 hp2
    constructor
    · intro hsame
      rw [hsame, hl2] at hl1
      exact (Option.some.inj hl1).symm
    · intro hdiff
      have hm1 := mem_of_lookup_eq_some pgs _ _ hl1
      have hm2 := mem_of_lookup_eq_some pgs _ _ hl2
      constructor
      · intro hid
        have := List.inj_on_of_nodup_map hnd hm1 hm2 hid
        exact hdiff (congrArg Prod.fst this)
      · rw [(hmem _ hm1).2, (hmem _ hm2).2]

/-- `finalizeEntry` unfolded onto the page bucketing loop (stated with
equation hypotheses so the computed per-entry quantities need not be
retyped at every use). -/
theorem finalizeEntry_eq (env : Env) (nextId : Nat) (key : _Texture) (layers : List Nat)
    (eW eH nL : Nat) (cp : CompType) (dx : DxtLevel) (data : List Nat)
    (heW : eW = ensure_power_of_two key.image.width)
    (heH : eH = ensure_power_of_two key.image.height)
    (hnL : nL = finalizeNumLevels key.mipmap eW eH)
    (hcp : cp = if key.mipmap then CompType.directXCompression else CompType.uncompressed)
    (hdx : dx = if key.use_alpha || key.calc_alpha then DxtLevel.dxt5 else DxtLevel.dxt1)
    (hdata : data = (List.range nL).map
      (fun i => env.get_level_data key.image i key.calc_alpha (compFmt cp))) :
    finalizeEntry env nextId key layers =
      ((finalizePagesLoop env (finalizeMk eW eH nL cp dx data) layers nextId []).1,
       (finalizePagesLoop env (finalizeMk eW eH nL cp dx data) layers nextId []).2.2) := by
  subst heW; subst heH; subst hnL; subst hcp; subst hdx; subst hdata
  rfl

/-- C3: in `finalize`, the per-entry assignment visits the consumer
layers in order, and for any two consuming layers of one pending
identity: equal resolved pages yield the identical `plMipmap` object,
while distinct pages yield two distinct objects (different allocation
identities) built with identical dimensions, level count, compression
and level data. -/
theorem C3_page_sharing (env : Env) (nextId : Nat) (key : _Texture) (layers : List Nat) :
    ((finalizeEntry env nextId key layers).2.map Prod.fst = layers) ∧
    (∀ p1 ∈ (finalizeEntry env nextId key layers).2,
     ∀ p2 ∈ (finalizeEntry env nextId key layers).2,
      (env.get_textures_page p1.1 = env.get_textures_page p2.1 → p1.2 = p2.2) ∧
      (env.get_textures_page p1.1 ≠ env.get_textures_page p2.1 →
        p1.2.id ≠ p2.2.id ∧ mipContent p1.2 = mipContent p2.2)) := by
  have heq := finalizeEntry_eq env nextId key layers _ _ _ _ _ _ rfl rfl rfl rfl rfl rfl
  have h := finalizeLoop_pairwise env
    (finalizeMk (ensure_power_of_two key.image.width) (ensure_power_of_two key.image.height)
      (finalizeNumLevels key.mipmap (ensure_power_of_two key.image.width)
        (ensure_power_of_two key.image.height))
      (if key.mipmap then CompType.directXCompression else CompType.uncompressed)
      (if key.use_alpha || key.calc_alpha then DxtLevel.dxt5 else DxtLevel.dxt1)
      ((List.range (finalizeNumLevels key.mipmap (ensure_power_of_two key.image.width)
          (ensure_power_of_two key.image.height))).map
        (fun i => env.get_level_data key.image i key.calc_alpha
          (compFmt (if key.mipmap then CompType.directXCompression
            else CompType.uncompressed)))))
    (fun _ => rfl) (fun _ => rfl) layers nextId
  rw [heq]
  exact ⟨h.1, h.2.2⟩

/-- Witness for C3: a non-mipmapped identity consumed by layers 3 and
4.  Under the identity page resolver the two layers land in different
pages and get the two distinct same-content mipmaps (ids 0 and 1);
under the constant page resolver both layers share the single mipmap
object with id 0. -/
theorem C3_page_sharing_witness :
    ((3, finalizeMk 256 256 1 CompType.uncompressed DxtLevel.dxt5 [0] 0)
      ∈ (finalizeEntry wEnv 0 wTexFlat [3, 4]).2) ∧
    ((4, finalizeMk 256 256 1 CompType.uncompressed DxtLevel.dxt5 [0] 1)
      ∈ (finalizeEntry wEnv 0 wTexFlat [3, 4]).2) ∧
    (wEnv.get_textures_page 3 ≠ wEnv.get_textures_page 4) ∧
    ((finalizeMk 256 256 1 CompType.uncompressed DxtLevel.dxt5 [0] 0).id ≠
      (finalizeMk 256 256 1 CompType.uncompressed DxtLevel.dxt5 [0] 1).id ∧
     mipContent (finalizeMk 256 256 1 CompType.uncompressed DxtLevel.dxt5 [0] 0) =
      mipContent (finalizeMk 256 256 1 CompType.uncompressed DxtLevel.dxt5 [0] 1)) ∧
    ((3, finalizeMk 256 256 1 CompType.uncompressed DxtLevel.dxt5 [0] 0)
      ∈ (finalizeEntry wTexturesPageEnv 0 wTexFlat [3, 4]).2 ∧
     (4, finalizeMk 256 256 1 CompType.uncompressed DxtLevel.dxt5 [0] 0)
      ∈ (finalizeEntry wTexturesPageEnv 0 wTexFlat [3, 4]).2) :=
  ⟨by decide, by decide, by decide,
    ((C3_page_sharing wEnv 0 wTexFlat [3, 4]).2
      (3, finalizeMk 256 256 1 CompType.uncompressed DxtLevel.dxt5 [0] 0) (by decide)
      (4, finalizeMk 256 256 1 CompType.uncompressed DxtLevel.dxt5 [0] 1) (by decide)).2
      (by decide),
    by decide, by decide⟩

/-- C4: every `plMipmap` an entry produces carries
`finalizeNumLevels` of the power-of-two-adjusted dimensions, which is
`max((floor(log2(max(eW, eH))) + 1) - 2, 2)` when mipmapped and 1
otherwise; at 256×256 the raw formula gives 9 levels and the
workaround clamps them to 7. -/
theorem C4_mip_level_count :
    (∀ (env : Env) (nextId : Nat) (key : _Texture) (layers : List Nat),
      ∀ pr ∈ (finalizeEntry env nextId key layers).2,
        pr.2.numLevels = finalizeNumLevels key.mipmap
          (ensure_power_of_two key.image.width) (ensure_power_of_two key.image.height)) ∧
    (∀ (mipmap : Bool) (eW eH : Nat),
      finalizeNumLevels mipmap eW eH =
        if mipmap then max ((log2floor (max eW eH) + 1) - 2) 2 else 1) ∧
    (log2floor (max (ensure_power_of_two 256) (ensure_power_of_two 256)) + 1 = 9) ∧
    (finalizeNumLevels true (ensure_power_of_two 256) (ensure_power_of_two 256) = 7) := by
  refine ⟨?_, ?_, by decide, by decide⟩
  · intro env nextId key layers pr hpr
    have heq := finalizeEntry_eq env nextId key layers _ _ _ _ _ _ rfl rfl rfl rfl rfl rfl
    have h := finalizeLoop_pairwise env
      (finalizeMk (ensure_power_of_two key.image.width) (ensure_power_of_two key.image.height)
        (finalizeNumLevels key.mipmap (ensure_power_of_two key.image.width)
          (ensure_power_of_two key.image.height))
        (if key.mipmap then CompType.directXCompression else CompType.uncompressed)
        (if key.use_alpha || key.calc_alpha then DxtLevel.dxt5 else DxtLevel.dxt1)
        ((List.range (finalizeNumLevels key.mipmap (ensure_power_of_two key.image.width)
            (ensure_power_of_two key.image.height))).map
          (fun i => env.get_level_data key.image i key.calc_alpha
            (compFmt (if key.mipmap then CompType.directXCompression
              else CompType.uncompressed)))))
      (fun _ => rfl) (fun _ => rfl) layers nextId
    rw [heq] at hpr
    have hc := h.2.1 pr hpr
    exact congrArg (fun t => t.2.2.1) hc
  · intro mipmap eW eH
    cases mipmap <;> simp [finalizeNumLevels]

/-- Witness for C4: the mipmapped 256×256 identity `wTexMip` consumed
by layer 3 produces a 7-level DXT5 mipmap. -/
theorem C4_mip_level_count_witness :
    ((3, finalizeMk 256 256 7 CompType.directXCompression DxtLevel.dxt5
        [0, 1, 2, 3, 4, 5, 6] 0) ∈ (finalizeEntry wEnv 0 wTexMip [3]).2) ∧
    ((3, finalizeMk 256 256 7 CompType.directXCompression DxtLevel.dxt5
        [0, 1, 2, 3, 4, 5, 6] 0).2.numLevels = finalizeNumLevels wTexMip.mipmap
      (ensure_power_of_two wTexMip.image.width) (ensure_power_of_two wTexMip.image.height)) ∧
    (finalizeNumLevels wTexMip.mipmap (ensure_power_of_two wTexMip.image.width)
      (ensure_power_of_two wTexMip.image.height) = 7) :=
  ⟨by decide,
    C4_mip_level_count.1 wEnv 0 wTexMip [3]
      (3, finalizeMk 256 256 7 CompType.directXCompression DxtLevel.dxt5
        [0, 1, 2, 3, 4, 5, 6] 0) (by decide),
    by decide⟩

/-! ## Stencil chaining -/

theorem propagate_name (env : Env) (bm : BMaterial) (layer : Layer) :
    (_propagate_material_settings env bm layer).name = layer.name := rfl

theorem applyLayerProps_name (props : PlasmaLayerProps) (layer : Layer) :
    (applyLayerProps props layer).name = layer.name := by
  unfold applyLayerProps
  split_ifs <;> rfl

theorem image_export_name (env : Env) (st : ConvState) (layer : Layer)
    (slot : TextureSlot) (texture : BTexture) :
    (_export_texture_type_image env st layer slot texture).2.name = layer.name := by
  unfold _export_texture_type_image
  rcases h : texture.image with _ | img <;> simp only [h]

theorem envmap_export_name (env : Env) (bo : BObject) (st : ConvState) (layer : Layer)
    (texture : BTexture) (st2 : ConvState) (layer2 : Layer)
    (h : _export_texture_type_environment_map env bo st layer texture = (st2, .ok layer2)) :
    layer2.name = layer.name := by
  unfold _export_texture_type_environment_map at h
  rcases he : texture.environment_map with _ | bl_env
  · rw [he] at h; simp at h
  · rw [he] at h
    dsimp only at h
    split_ifs at h
    · rcases hd : env.export_dynamic_env bo texture with e | k
      · rw [hd] at h; simp at h
      · rw [hd] at h
        simp only [Prod.mk.injEq, Except.ok.injEq] at h
        rw [← h.2]
    · simp at h

theorem exportTextureType_name (env : Env) (bo : BObject) (st : ConvState) (layer : Layer)
    (slot : TextureSlot) (texture : BTexture) (st2 : ConvState) (layer2 : Layer)
    (h : exportTextureType env bo st layer slot texture = (st2, .ok layer2)) :
    layer2.name = layer.name := by
  unfold exportTextureType at h
  split_ifs at h
  · exact envmap_export_name env bo st layer texture st2 layer2 h
  · simp only [Prod.mk.injEq, Except.ok.injEq] at h
    rw [← h.2, image_export_name]
  · simp only [Prod.mk.injEq, Except.ok.injEq] at h
    rw [← h.2]
  · simp at h

theorem opacity_anim_name (env : Env) (layer : Layer) (fcurves : List FCurve) :
    (_export_layer_opacity_animation env layer fcurves).1.name = layer.name := by
  unfold _export_layer_opacity_animation
  rcases h : fcurves.find? (fun f => f.data_path == "plasma_layer.opacity") with _ | f <;>
    simp only [h]

theorem anims_base_name (env : Env) (bm : BMaterial) (tex_slot : TextureSlot)
    (texture : BTexture) (idx : Nat) (st : ConvState) (base_layer : Layer) :
    (_export_layer_animations env bm tex_slot texture idx st base_layer).2.base.name
      = base_layer.name := by
  unfold _export_layer_animations
  dsimp only
  split_ifs <;> simp [MatLayer.base, opacity_anim_name]

theorem finishSlot_shape (env : Env) (bo : BObject) (bm : BMaterial) (st : ConvState)
    (hsgmat : HSGMaterial) (slot : TextureSlot) (texture : BTexture) (layer : Layer)
    (idx n : Nat) (st' : ConvState) (r : HSGMaterial × Nat)
    (h : finishSlot env bo bm st hsgmat slot texture layer idx n = (st', .ok r)) :
    ∃ ml, r.1 = { hsgmat with layers := hsgmat.layers ++ [ml] } ∧
      ml.base.name = layer.name ∧ r.2 = n := by
  unfold finishSlot at h
  simp only [] at h
  rcases ht : exportTextureType env bo st (applyLayerProps texture.plasma_layer layer)
      slot texture with ⟨st1, rt⟩
  rw [ht] at h
  cases rt with
  | error e => simp at h
  | ok layer2 =>
    dsimp only at h
    simp only [Prod.mk.injEq, Except.ok.injEq] at h
    obtain ⟨h1, h2⟩ := h
    refine ⟨(_export_layer_animations env bm slot texture idx st1 layer2).2, ?_, ?_, ?_⟩
    · rw [← h2]
    · rw [anims_base_name, exportTextureType_name env bo st _ slot texture st1 layer2 ht,
        applyLayerProps_name]
    · rw [← h2]

theorem modifyLast_append (f : MatLayer → MatLayer) (l : List MatLayer) (x : MatLayer) :
    modifyLast f (l ++ [x]) = l ++ [f x] := by
  induction l with
  | nil => rfl
  | cons y rest ih =>
    cases rest with
    | nil => rfl
    | cons z rest2 =>
      show y :: modifyLast f ((z :: rest2) ++ [x]) = y :: ((z :: rest2) ++ [f x])
      rw [ih]

theorem flagStencilPrev_base_name (m : MatLayer) :
    (flagStencilPrev m).base.name = m.base.name := by
  cases m <;> (unfold flagStencilPrev) <;> dsimp only [MatLayer.state, MatLayer.withState] <;>
    split_ifs <;> rfl

theorem flagStencilPrev_misc (m : MatLayer) :
    (flagStencilPrev m).state.miscFlags.miscBindNext = true ∧
    (flagStencilPrev m).state.miscFlags.miscRestartPassHere = true := by
  cases m <;> (unfold flagStencilPrev) <;> dsimp only [MatLayer.state, MatLayer.withState] <;>
    split_ifs <;> exact ⟨rfl, rfl⟩

theorem flagStencilPrev_alpha (m : MatLayer) :
    (flagStencilPrev m).state.blendFlags.blendAlpha =
      (m.state.blendFlags.blendAlpha || !blendMaskNonempty m.state.blendFlags) := by
  cases m <;> (unfold flagStencilPrev) <;> dsimp only [MatLayer.state, MatLayer.withState] <;>
    split_ifs with hb <;> simp_all

theorem blendMaskNonempty_false_alpha (f : BlendFlags)
    (h : blendMaskNonempty f = false) : f.blendAlpha = false := by
  unfold blendMaskNonempty at h
  simp only [Bool.or_eq_false_iff] at h
  exact h.1.1.1.1.1.1.1

/-- Shape of any successful per-slot export: the slot exists, the
material gains at least the slot's own layer (whose base carries the
`<material>_<slot>` name) as the last appended element, and the
consumed-slot count is 2 for a stencil slot and 1 otherwise. -/
theorem slot_export_shape (env : Env) (bo : BObject) (bm : BMaterial) :
    ∀ (fuel : Nat) (st : ConvState) (hsgmat : HSGMaterial) (slots : List TextureSlot)
      (idx : Nat) (st' : ConvState) (r : HSGMaterial × Nat),
      _export_texture_slotF env bo bm fuel st hsgmat slots idx = (st', .ok r) →
      ∃ slot gained ml, slots[idx]? = some slot ∧
        r.1.layers = hsgmat.layers ++ gained ++ [ml] ∧
        ml.base.name = bm.name ++ "_" ++ slot.name ∧
        r.2 = (if slot.use_stencil then 2 else 1) := by
  intro fuel
  induction fuel with
  | zero =>
    intro st hsgmat slots idx st' r h
    simp [_export_texture_slotF] at h
  | succ fuel ih =>
    intro st hsgmat slots idx st' r h
    simp only [_export_texture_slotF] at h
    rcases hslot : slots[idx]? with _ | slot
    · rw [hslot] at h; simp at h
    · rw [hslot] at h
      dsimp only [allocKey] at h
      rcases htex : slot.texture with _ | texture
      · rw [htex] at h; simp at h
      · rw [htex] at h
        dsimp only at h
        by_cases hsten : slot.use_stencil = true
        · simp only [hsten, if_true] at h
          by_cases hlen : slots.length = idx + 1
          · rw [if_pos hlen] at h; simp at h
          · rw [if_neg hlen] at h
            rcases hrec : _export_texture_slotF env bo bm fuel
                { st with nextKey := st.nextKey + 1 }
                { hsgmat with compNeedsBlendChannel := true } slots (idx + 1)
              with ⟨st1, r1⟩
            rw [hrec] at h
            cases r1 with
            | error e => simp at h
            | ok p1 =>
              obtain ⟨hsg1, n1⟩ := p1
              dsimp only at h
              obtain ⟨slot2, gained1, ml1, hslot2, hlay1, hname1, hcount1⟩ :=
                ih _ _ slots (idx + 1) st1 (hsg1, n1) hrec
              obtain ⟨ml, hre, hname, hn⟩ :=
                finishSlot_shape env bo bm st1 _ slot texture _ idx 2 st' r h
              refine ⟨slot, gained1 ++ [flagStencilPrev ml1], ml, rfl, ?_, ?_, ?_⟩
              · rw [hre]
                dsimp only
                dsimp only at hlay1
                rw [hlay1, modifyLast_append]
                simp [List.append_assoc]
              · rw [hname]
                rfl
              · simp [hn, hsten]
        · simp only [Bool.not_eq_true] at hsten
          simp only [hsten, Bool.false_eq_true, if_false] at h
          obtain ⟨ml, hre, hname, hn⟩ :=
            finishSlot_shape env bo bm _ hsgmat slot texture _ idx 1 st' r h
          refine ⟨slot, [], ml, rfl, ?_, ?_, ?_⟩
          · rw [hre]
            simp
          · rw [hname]
            rfl
          · simp [hn, hsten]

/-- C2: a successful export of a stencil slot at index `idx` returns
exactly 2 consumed slots, and the material's layer sequence gains the
layer built for slot `idx + 1` immediately before the stencil layer
built for slot `idx`; that preceding layer is retroactively flagged
with bind-next-layer and restart-render-pass, and it newly receives
the alpha-blend flag iff its blend flags were empty under
`kBlendMask` at flagging time.  (`pre` covers the layers a nested
stencil at `idx + 1` would have exported before its own layer; it is
empty in the ordinary case.) -/
theorem C2_stencil_chain (env : Env) (bo : BObject) (bm : BMaterial) (st : ConvState)
    (hsgmat : HSGMaterial) (slots : List TextureSlot) (idx : Nat) (slot : TextureSlot)
    (st' : ConvState) (hsg' : HSGMaterial) (n : Nat)
    (hslot : slots[idx]? = some slot)
    (hsten : slot.use_stencil = true)
    (h : _export_texture_slot env bo bm st hsgmat slots idx = (st', .ok (hsg', n))) :
    n = 2 ∧
    ∃ slot2 pre b s,
      slots[idx + 1]? = some slot2 ∧
      hsg'.layers = hsgmat.layers ++ pre ++ [flagStencilPrev b, s] ∧
      (flagStencilPrev b).base.name = bm.name ++ "_" ++ slot2.name ∧
      s.base.name = bm.name ++ "_" ++ slot.name ∧
      (flagStencilPrev b).state.miscFlags.miscBindNext = true ∧
      (flagStencilPrev b).state.miscFlags.miscRestartPassHere = true ∧
      (((flagStencilPrev b).state.blendFlags.blendAlpha = true ∧
          b.state.blendFlags.blendAlpha = false) ↔
        blendMaskNonempty b.state.blendFlags = false) := by
  unfold _export_texture_slot at h
  obtain ⟨f, hf⟩ : ∃ f, slots.length = f + 1 := by
    have hlt : idx < slots.length := by
      rcases Nat.lt_or_ge idx slots.length with h1 | h1
      · exact h1
      · rw [List.getElem?_eq_none h1] at hslot; simp at hslot
    exact ⟨slots.length - 1, by omega⟩
  rw [hf] at h
  simp only [_export_texture_slotF] at h
  rw [hslot] at h
  dsimp only [allocKey] at h
  rcases htex : slot.texture with _ | texture
  · rw [htex] at h; simp at h
  · rw [htex] at h
    dsimp only at h
    simp only [hsten, if_true] at h
    by_cases hlen : slots.length = idx + 1
    · rw [if_pos hlen] at h; simp at h
    · rw [if_neg hlen] at h
      rcases hrec : _export_texture_slotF env bo bm f { st with nextKey := st.nextKey + 1 }
          { hsgmat with compNeedsBlendChannel := true } slots (idx + 1) with ⟨st1, r1⟩
      rw [hrec] at h
      cases r1 with
      | error e => simp at h
      | ok p1 =>
        obtain ⟨hsg1, n1⟩ := p1
        dsimp only at h
        obtain ⟨slot2, gained1, ml1, hslot2, hlay1, hname1, hcount1⟩ :=
          slot_export_shape env bo bm f _ _ slots (idx + 1) st1 (hsg1, n1) hrec
        obtain ⟨ml, hre, hname, hn⟩ :=
          finishSlot_shape env bo bm st1 _ slot texture _ idx 2 st' (hsg', n) h
        refine ⟨by simpa using hn, slot2, gained1, ml1, ml, hslot2, ?_, ?_, ?_, ?_, ?_, ?_⟩
        · have hl : hsg'.layers = (modifyLast flagStencilPrev hsg1.layers) ++ [ml] := by
            have hc := congrArg HSGMaterial.layers hre
            simpa using hc
          rw [hl]
          dsimp only at hlay1
          rw [hlay1, modifyLast_append]
          simp [List.append_assoc]
        · rw [flagStencilPrev_base_name]; exact hname1
        · rw [hname]; rfl
        · exact (flagStencilPrev_misc ml1).1
        · exact (flagStencilPrev_misc ml1).2
        · have halpha := flagStencilPrev_alpha ml1
          constructor
          · rintro ⟨ha', hna⟩
            rw [ha', hna] at halpha
            cases hmask : blendMaskNonempty ml1.state.blendFlags with
            | false => rfl
            | true => rw [hmask] at halpha; simp at halpha
          · intro hmask
            have ha0 := blendMaskNonempty_false_alpha _ hmask
            refine ⟨?_, ha0⟩
            rw [halpha, hmask, ha0]
            rfl

/-- Witness for C2: a stencil slot (over a NONE-type texture) followed
by a plain slot, exported from a fresh material. -/
theorem C2_stencil_chain_witness :
    ([wSlotStencil, wSlotBase][0]? = some wSlotStencil) ∧
    (wSlotStencil.use_stencil = true) ∧
    ∃ st' hsg' n,
      _export_texture_slot wEnv wBo wBm wSt wMat [wSlotStencil, wSlotBase] 0 =
        (st', .ok (hsg', n)) ∧
      (n = 2 ∧
       ∃ slot2 pre b s,
        [wSlotStencil, wSlotBase][0 + 1]? = some slot2 ∧
        hsg'.layers = wMat.layers ++ pre ++ [flagStencilPrev b, s] ∧
        (flagStencilPrev b).base.name = wBm.name ++ "_" ++ slot2.name ∧
        s.base.name = wBm.name ++ "_" ++ wSlotStencil.name ∧
        (flagStencilPrev b).state.miscFlags.miscBindNext = true ∧
        (flagStencilPrev b).state.miscFlags.miscRestartPassHere = true ∧
        (((flagStencilPrev b).state.blendFlags.blendAlpha = true ∧
            b.state.blendFlags.blendAlpha = false) ↔
          blendMaskNonempty b.state.blendFlags = false)) := by
  refine ⟨rfl, rfl, ?_⟩
  have hok : (_export_texture_slot wEnv wBo wBm wSt wMat [wSlotStencil, wSlotBase] 0).2.isOk
      = true := by rfl
  rcases hm : _export_texture_slot wEnv wBo wBm wSt wMat [wSlotStencil, wSlotBase] 0
    with ⟨st', r⟩
  rw [hm] at hok
  cases r with
  | error e => simp [Except.isOk, Except.toBool] at hok
  | ok p =>
    obtain ⟨hsg', n⟩ := p
    exact ⟨st', hsg', n, rfl,
      C2_stencil_chain wEnv wBo wBm wSt wMat [wSlotStencil, wSlotBase] 0 wSlotStencil
        st' hsg' n rfl rfl hm⟩
